import Mathlib

/-!
Verification development for the authoritative group-membership state machine
of the Mock-Signal-Server repository (ServerGroup in src/server/group.ts and
the abstract Group in src/data/group.ts).

The TypeScript code is shallowly embedded: opaque byte strings (user-id
ciphertexts, profile-key ciphertexts, public keys, titles, signatures) are
modelled as natural numbers, protobuf-optional fields as Option, and fallible
code (assert.ok / thrown errors) as Except GroupError.  The external
zero-knowledge collaborators are modelled per the design contract: a
credential presentation carries its verification outcome (valid) and the
extracted identity ciphertext (uuid) plus profile-key ciphertext; the signer
is an opaque function field (zkSign) of the group, composed with the
canonical action encoding.
-/

namespace MockSignal

/-- Opaque byte strings (ciphertexts, keys, titles, signatures). -/
abbrev Bytes := Nat

/-- Proto.AccessControl.AccessRequired numeric values (Groups.proto). -/
def AccessRequired.UNKNOWN : Nat := 0

def AccessRequired.ANY : Nat := 1

def AccessRequired.MEMBER : Nat := 2

def AccessRequired.ADMINISTRATOR : Nat := 3

def AccessRequired.UNSATISFIABLE : Nat := 4

/-- Proto.Member.Role numeric values (Groups.proto). -/
def Role.UNKNOWN : Nat := 0

def Role.DEFAULT : Nat := 1

def Role.ADMINISTRATOR : Nat := 2

/-- A zero-knowledge profile-key credential presentation, modelled by the
CredentialVerifier collaborator contract: verification either fails
(valid = false) or extracts an identity ciphertext and a profile-key
ciphertext. -/
structure Presentation where
  valid : Bool
  uuid : Bytes
  profileKey : Bytes
deriving DecidableEq, Repr

/-- Proto.IMember: every field is protobuf-optional. -/
structure IMember where
  role : Option Nat
  userId : Option Bytes
  profileKey : Option Bytes
  presentation : Option Presentation
deriving DecidableEq, Repr

/-- Proto.IMemberPendingProfileKey. -/
structure IPendingMember where
  member : Option IMember
  addedByUserId : Option Bytes
  timestamp : Nat
deriving DecidableEq, Repr

/-- Proto.IAccessControl. -/
structure AccessControl where
  attributes : Option Nat
  members : Option Nat
  addFromInviteLink : Option Nat
deriving DecidableEq, Repr

/-- Proto.IGroup restricted to the fields the group logic reads or writes. -/
structure IGroup where
  publicKey : Option Bytes
  version : Option Nat
  title : Option Bytes
  accessControl : Option AccessControl
  members : Option (List IMember)
  membersPendingProfileKey : Option (List IPendingMember)
deriving DecidableEq, Repr

/-- Proto.GroupChange.Actions.ModifyTitleAction. -/
structure ModifyTitleAction where
  title : Option Bytes
deriving DecidableEq, Repr

/-- Proto.GroupChange.Actions.DeleteMemberAction. -/
structure DeleteMemberAction where
  deletedUserId : Option Bytes
deriving DecidableEq, Repr

/-- Proto.GroupChange.Actions.AddMemberPendingProfileKeyAction. -/
structure AddPendingMemberAction where
  added : Option IPendingMember
deriving DecidableEq, Repr

/-- Proto.GroupChange.Actions.DeleteMemberPendingProfileKeyAction. -/
structure DeletePendingMemberAction where
  deletedUserId : Option Bytes
deriving DecidableEq, Repr

/-- A promote action carrying a credential presentation (both the
promotePendingMembers and the promoteMembersPendingPniAciProfileKey shapes). -/
structure PromotePendingMemberAction where
  presentation : Option Presentation
deriving DecidableEq, Repr

/-- Proto.GroupChange.IActions as submitted by a caller. -/
structure IActions where
  version : Option Nat
  sourceUuid : Option Bytes
  modifyTitle : Option ModifyTitleAction
  deleteMembers : Option (List DeleteMemberAction)
  addPendingMembers : Option (List AddPendingMemberAction)
  deletePendingMembers : Option (List DeletePendingMemberAction)
  promotePendingMembers : Option (List PromotePendingMemberAction)
  promoteMembersPendingPniAciProfileKey : Option (List PromotePendingMemberAction)
deriving DecidableEq, Repr

/-- Normalized record appended for an applied promotePendingMembers action. -/
structure PromotedMemberRecord where
  userId : Bytes
  profileKey : Bytes
deriving DecidableEq, Repr

/-- Normalized record appended for an applied PNI-ACI promotion. -/
structure PromotedPniRecord where
  userId : Bytes
  pni : Bytes
  profileKey : Bytes
deriving DecidableEq, Repr

/-- The appliedActions accumulator built by modify and later signed. -/
structure AppliedActions where
  version : Option Nat
  sourceUuid : Option Bytes
  modifyTitle : Option ModifyTitleAction
  deleteMembers : Option (List DeleteMemberAction)
  addPendingMembers : Option (List AddPendingMemberAction)
  deletePendingMembers : Option (List DeletePendingMemberAction)
  promotePendingMembers : Option (List PromotedMemberRecord)
  promoteMembersPendingPniAciProfileKey : Option (List PromotedPniRecord)
deriving DecidableEq, Repr

/-- Proto.IGroupChange: the entry stored in the log keeps the canonical
applied-actions record (the canonical encoding is opaque) and the change
epoch; the server signature is attached only on the returned copy. -/
structure IGroupChange where
  actions : AppliedActions
  changeEpoch : Nat
  serverSignature : Option Bytes
deriving DecidableEq, Repr

/-- One element of Proto.IGroupChanges.groupChanges. -/
structure GroupChangeEntry where
  groupChange : Option IGroupChange
  groupState : Option IGroup
deriving DecidableEq, Repr

/-- The signed change returned by a committed modify. -/
structure SignedGroupChange where
  actions : AppliedActions
  changeEpoch : Nat
  serverSignature : Bytes
deriving DecidableEq, Repr

/-- ModifyGroupResult: conflict carries no signed change. -/
inductive ModifyGroupResult where
  | conflict : ModifyGroupResult
  | applied : SignedGroupChange → ModifyGroupResult
deriving DecidableEq, Repr

/-- Failures: assertionFailed models a failed node assert call, thrown models
an explicitly thrown Error (including verification failures raised inside the
zkgroup collaborator). -/
inductive GroupError where
  | assertionFailed : String → GroupError
  | thrown : String → GroupError
deriving DecidableEq, Repr

/-- A ServerGroup instance: group public params, the signer collaborator
closure (sign composed with the canonical actions encoding), and the
append-only change log (privChanges.groupChanges). -/
structure ServerGroup where
  publicParams : Bytes
  zkSign : AppliedActions → Bytes
  privChanges : List GroupChangeEntry

/-- Constructor options (profileOps is the verifier collaborator, folded into
Presentation.valid; zkSecret with sign and encode folded into zkSign). -/
structure ServerGroupOptions where
  zkSign : AppliedActions → Bytes
  state : IGroup

/-- Group.state (src/data/group.ts): the groupState of the last change-log
entry; the getter asserts when the log is empty or the tail has no state. -/
def ServerGroup.stateQ (g : ServerGroup) : Option IGroup :=
  match g.privChanges.getLast? with
  | some entry => entry.groupState
  | none => none

/-- Group.getMember (src/data/group.ts): first member of the current snapshot
whose userId bytes equal the given ciphertext; members without a userId are
skipped. -/
def findMember (userId : Bytes) (members : List IMember) : Option IMember :=
  members.find? (fun m =>
    match m.userId with
    | some u => u == userId
    | none => false)

def IGroup.getMember (state : IGroup) (userId : Bytes) : Option IMember :=
  findMember userId (state.members.getD [])

/-- Modelled from the spec: getPendingMember is code of this repository that
is not under src (only its callers in ServerGroup.modify are provided).
Spec 4.4: a linear scan of the current snapshot comparing opaque identity
bytes for equality, returning absence (not an error) when no match exists;
symmetric to getMember but over membersPendingProfileKey. -/
def IGroup.getPendingMember (state : IGroup) (userId : Bytes) : Option IPendingMember :=
  (state.membersPendingProfileKey.getD []).find? (fun pm =>
    match pm.member with
    | some m =>
      match m.userId with
      | some u => u == userId
      | none => false
    | none => false)

/-- The self-modification bypass test of ServerGroup.verifyAccess: the acting
member is present, has a userId, an affected user id was supplied, and the
two byte strings are equal. -/
def isSelfTarget (member : Option IMember) (affectedUserId : Option Bytes) : Bool :=
  match member, affectedUserId with
  | some m, some a =>
    match m.userId with
    | some u => u == a
    | none => false
  | _, _ => false

/-- ServerGroup.verifyAccess: self-modification is always allowed; otherwise
switch on the required access level.  A level outside the enum falls through
the switch and allows, as in the source. -/
def verifyAccess (attr : String) (member : Option IMember)
    (access : Nat) (affectedUserId : Option Bytes) : Except GroupError Unit :=
  if isSelfTarget member affectedUserId then
    .ok ()
  else if access = AccessRequired.ANY then
    .ok ()
  else if access = AccessRequired.MEMBER then
    match member with
    | some _ => .ok ()
    | none => .error (.assertionFailed ("Must be a member to access: " ++ attr))
  else if access = AccessRequired.ADMINISTRATOR then
    match member with
    | some m =>
      if m.role = some Role.ADMINISTRATOR then .ok ()
      else .error (.assertionFailed ("Must be an administrator to modify: " ++ attr))
    | none => .error (.assertionFailed ("Must be an administrator to modify: " ++ attr))
  else if access = AccessRequired.UNSATISFIABLE then
    .error (.thrown ("Unsatisfiable access attribute: " ++ attr))
  else if access = AccessRequired.UNKNOWN then
    .error (.thrown ("Unknown access for attribute: " ++ attr))
  else
    .ok ()

/-- ServerGroup.unrollMember: the role must be a number and the presentation
present; the presentation is verified against the group public params and the
member entry is replaced by the verified role, userId, and profileKey (the
raw input userId and profileKey are discarded). -/
def unrollMember (m : IMember) : Except GroupError IMember :=
  match m.role with
  | none => .error (.assertionFailed "Group member role is undefined")
  | some role =>
    match m.presentation with
    | none => .error (.assertionFailed "Group member presentation is undefined")
    | some p =>
      if p.valid then
        .ok { role := some role
              userId := some p.uuid
              profileKey := some p.profileKey
              presentation := none }
      else
        .error (.thrown "Credential presentation failed verification")

/-- state.members.map(unrollMember) where unrollMember may throw: the first
failure aborts the whole construction. -/
def unrollAll : List IMember → Except GroupError (List IMember)
  | [] => .ok []
  | m :: rest =>
    match unrollMember m with
    | .error e => .error e
    | .ok m1 =>
      match unrollAll rest with
      | .error e => .error e
      | .ok rest1 => .ok (m1 :: rest1)

/-- The ServerGroup constructor: validate public key, initial version 0,
fully configured access control, and a non-empty member list; verify every
member presentation; seed the change log with a single entry holding the
fully verified state. -/
def constructGroup (opts : ServerGroupOptions) : Except GroupError ServerGroup :=
  let state := opts.state
  match state.publicKey with
  | none => .error (.assertionFailed "Group public key must be present")
  | some pk =>
    if state.version = some 0 then
      match state.accessControl with
      | none => .error (.assertionFailed "Group access control must be present")
      | some ac =>
        if ac.attributes.isSome && ac.members.isSome && ac.addFromInviteLink.isSome then
          match state.members with
          | none => .error (.assertionFailed "Group members must be present")
          | some ms =>
            if ms.isEmpty then
              .error (.assertionFailed "Group members must be present")
            else
              match unrollAll ms with
              | .error e => .error e
              | .ok unrolled =>
                .ok { publicParams := pk
                      zkSign := opts.zkSign
                      privChanges := [ { groupChange := none
                                         groupState := some { state with members := some unrolled } } ] }
        else
          .error (.assertionFailed "Group access control must be configured")
    else
      .error (.assertionFailed "Initial group version must be zero")

/-- The working data threaded through sub-action processing in modify: the
working copy of the snapshot, the applied-actions accumulator, and the
change epoch. -/
structure Working where
  newState : IGroup
  applied : AppliedActions
  changeEpoch : Nat
deriving Repr

/-- accessControl?.attributes ?? AccessRequired.UNKNOWN. -/
def acAttributes (s : IGroup) : Nat :=
  match s.accessControl with
  | some a => a.attributes.getD AccessRequired.UNKNOWN
  | none => AccessRequired.UNKNOWN

/-- accessControl?.members ?? AccessRequired.UNKNOWN. -/
def acMembers (s : IGroup) : Nat :=
  match s.accessControl with
  | some a => a.members.getD AccessRequired.UNKNOWN
  | none => AccessRequired.UNKNOWN

/-- The initial appliedActions accumulator {version, sourceUuid}. -/
def initialApplied (v : Nat) (sourceACI : Bytes) : AppliedActions :=
  { version := some v
    sourceUuid := some sourceACI
    modifyTitle := none
    deleteMembers := none
    addPendingMembers := none
    deletePendingMembers := none
    promotePendingMembers := none
    promoteMembersPendingPniAciProfileKey := none }

/-- newState = { ...this.state, version: actions.version } together with the
fresh accumulator and the default change epoch 1. -/
def initialWorking (committed : IGroup) (sourceACI : Bytes) (v : Nat) : Working :=
  { newState := { committed with version := some v }
    applied := initialApplied v sourceACI
    changeEpoch := 1 }

/-- The modifyTitle section of modify. -/
def titleStage (authMember : Option IMember) (attrAccess : Nat)
    (actions : IActions) (w : Working) : Except GroupError Working :=
  match actions.modifyTitle with
  | none => .ok w
  | some t =>
    match verifyAccess "title" authMember attrAccess none with
    | .error e => .error e
    | .ok _ =>
      .ok { newState := { w.newState with title := t.title }
            applied := { w.applied with modifyTitle := some t }
            changeEpoch := w.changeEpoch }

/-- One iteration of the deleteMembers loop.  The member lookup consults the
committed snapshot (this.getMember reads this.state); the removal filters the
working member list. -/
def deleteMemberStep (committed : IGroup) (authMember : Option IMember)
    (memberAccess : Nat) (w : Working) (d : DeleteMemberAction) :
    Except GroupError Working :=
  match d.deletedUserId with
  | none => .error (.assertionFailed "Missing deletedUserId")
  | some deletedUserId =>
    match verifyAccess "members" authMember memberAccess (some deletedUserId) with
    | .error e => .error e
    | .ok _ =>
      match committed.getMember deletedUserId with
      | none => .error (.assertionFailed "Pending member not found for deletion")
      | some member =>
        .ok { newState := { w.newState with
                members := some ((w.newState.members.getD []).filter (fun entry => entry != member)) }
              applied := { w.applied with
                deleteMembers := some ((w.applied.deleteMembers.getD []) ++ [{ deletedUserId := some deletedUserId }]) }
              changeEpoch := w.changeEpoch }

/-- One iteration of the addPendingMembers loop.  assert.ok(role) also fails
on the numeric value 0 (falsy), so a role of Role.UNKNOWN is rejected. -/
def addPendingStep (authMember : Option IMember) (memberAccess : Nat)
    (sourceACI : Bytes) (now : Nat) (w : Working) (a : AddPendingMemberAction) :
    Except GroupError Working :=
  match a.added with
  | none => .error (.assertionFailed "Missing addPendingMember.added")
  | some added =>
    match added.member with
    | none => .error (.assertionFailed "Missing addPendingMembers.added.member")
    | some member =>
      match member.userId with
      | none => .error (.assertionFailed "Missing addPendingMembers.added.member.userId")
      | some userId =>
        match member.role with
        | none => .error (.assertionFailed "Missing addPendingMembers.added.member.role")
        | some role =>
          if role = 0 then
            .error (.assertionFailed "Missing addPendingMembers.added.member.role")
          else
            match verifyAccess "pendingMembers" authMember memberAccess none with
            | .error e => .error e
            | .ok _ =>
              let newPendingMember : IPendingMember :=
                { member := some { role := some role
                                   userId := some userId
                                   profileKey := none
                                   presentation := none }
                  addedByUserId := some sourceACI
                  timestamp := now }
              .ok { newState := { w.newState with
                      membersPendingProfileKey :=
                        some ((w.newState.membersPendingProfileKey.getD []) ++ [newPendingMember]) }
                    applied := { w.applied with
                      addPendingMembers :=
                        some ((w.applied.addPendingMembers.getD []) ++ [{ added := some newPendingMember }]) }
                    changeEpoch := w.changeEpoch }

/-- One iteration of the deletePendingMembers loop: the target must equal the
acting ACI or PNI, and the pending entry is looked up in the committed
snapshot. -/
def deletePendingStep (committed : IGroup) (sourceACI sourcePNI : Bytes)
    (w : Working) (d : DeletePendingMemberAction) : Except GroupError Working :=
  match d.deletedUserId with
  | none => .error (.assertionFailed "Missing deletedUserId")
  | some deletedUserId =>
    if deletedUserId == sourceACI || deletedUserId == sourcePNI then
      match committed.getPendingMember deletedUserId with
      | none => .error (.assertionFailed "Pending member not found for deletion")
      | some pendingMember =>
        .ok { newState := { w.newState with
                membersPendingProfileKey :=
                  some ((w.newState.membersPendingProfileKey.getD []).filter
                    (fun entry => entry != pendingMember)) }
              applied := { w.applied with
                deletePendingMembers :=
                  some ((w.applied.deletePendingMembers.getD []) ++ [{ deletedUserId := some deletedUserId }]) }
              changeEpoch := w.changeEpoch }
    else
      .error (.assertionFailed "Not a pending member")

/-- The verified active member entry produced by a promotion. -/
def promotedMemberEntry (pres : Presentation) : IMember :=
  { role := some Role.DEFAULT
    userId := some pres.uuid
    profileKey := some pres.profileKey
    presentation := none }

/-- One iteration of the promotePendingMembers loop: verify the presentation,
require the extracted identity to equal the acting ACI, require it pending
and not an active member (both looked up in the committed snapshot), then
move it from the working pending set to the working member set. -/
def promotePendingStep (committed : IGroup) (sourceACI : Bytes)
    (w : Working) (p : PromotePendingMemberAction) : Except GroupError Working :=
  match p.presentation with
  | none => .error (.assertionFailed "Missing presentation in promotePendingMembers")
  | some pres =>
    if pres.valid then
      if pres.uuid == sourceACI then
        match committed.getPendingMember pres.uuid with
        | none => .error (.assertionFailed "No pending member")
        | some pendingMember =>
          match committed.getMember pres.uuid with
          | some _ => .error (.assertionFailed "Member is both pending and active")
          | none =>
            .ok { newState := { w.newState with
                    membersPendingProfileKey :=
                      some ((w.newState.membersPendingProfileKey.getD []).filter
                        (fun entry => entry != pendingMember))
                    members := some ((w.newState.members.getD []) ++ [promotedMemberEntry pres]) }
                  applied := { w.applied with
                    promotePendingMembers :=
                      some ((w.applied.promotePendingMembers.getD [])
                        ++ [{ userId := pres.uuid, profileKey := pres.profileKey }]) }
                  changeEpoch := w.changeEpoch }
      else
        .error (.assertionFailed "Not a pending member")
    else
      .error (.thrown "Profile key credential presentation verification failed")

/-- One iteration of the promoteMembersPendingPniAciProfileKey loop: the
pending entry is keyed by the acting PNI while the new active member is keyed
by the extracted ACI; the change epoch is raised to 5 and the accumulator
records the PNI as the source. -/
def promotePniStep (committed : IGroup) (sourceACI sourcePNI : Bytes)
    (w : Working) (p : PromotePendingMemberAction) : Except GroupError Working :=
  match p.presentation with
  | none => .error (.assertionFailed "Missing presentation in promoteMembersPendingPniAciProfileKey")
  | some pres =>
    if pres.valid then
      if pres.uuid == sourceACI then
        match committed.getPendingMember sourcePNI with
        | none => .error (.assertionFailed "No pending pni member")
        | some pendingMember =>
          match committed.getMember pres.uuid with
          | some _ => .error (.assertionFailed "ACI is already a member")
          | none =>
            .ok { newState := { w.newState with
                    membersPendingProfileKey :=
                      some ((w.newState.membersPendingProfileKey.getD []).filter
                        (fun entry => entry != pendingMember))
                    members := some ((w.newState.members.getD []) ++ [promotedMemberEntry pres]) }
                  applied := { w.applied with
                    sourceUuid := some sourcePNI
                    promoteMembersPendingPniAciProfileKey :=
                      some ((w.applied.promoteMembersPendingPniAciProfileKey.getD [])
                        ++ [{ userId := pres.uuid, pni := sourcePNI, profileKey := pres.profileKey }]) }
                  changeEpoch := max w.changeEpoch 5 }
      else
        .error (.assertionFailed "Not a pending member")
    else
      .error (.thrown "Profile key credential presentation verification failed")

/-- Sequential processing of one sub-action list: the first failure aborts
the whole call. -/
def runSteps {α : Type} (f : Working → α → Except GroupError Working) :
    Working → List α → Except GroupError Working
  | w, [] => .ok w
  | w, a :: rest =>
    match f w a with
    | .error e => .error e
    | .ok w1 => runSteps f w1 rest

/-- The whole sub-action processing pipeline of modify, in source order:
title, deleteMembers, addPendingMembers, deletePendingMembers,
promotePendingMembers, promoteMembersPendingPniAciProfileKey. -/
def applyActions (committed : IGroup) (sourceACI sourcePNI : Bytes)
    (actions : IActions) (now : Nat) (v : Nat) : Except GroupError Working :=
  match titleStage (committed.getMember sourceACI) (acAttributes committed) actions
      (initialWorking committed sourceACI v) with
  | .error e => .error e
  | .ok w1 =>
    match runSteps (deleteMemberStep committed (committed.getMember sourceACI) (acMembers committed))
        w1 (actions.deleteMembers.getD []) with
    | .error e => .error e
    | .ok w2 =>
      match runSteps (addPendingStep (committed.getMember sourceACI) (acMembers committed) sourceACI now)
          w2 (actions.addPendingMembers.getD []) with
      | .error e => .error e
      | .ok w3 =>
        match runSteps (deletePendingStep committed sourceACI sourcePNI)
            w3 (actions.deletePendingMembers.getD []) with
        | .error e => .error e
        | .ok w4 =>
          match runSteps (promotePendingStep committed sourceACI)
              w4 (actions.promotePendingMembers.getD []) with
          | .error e => .error e
          | .ok w5 =>
            runSteps (promotePniStep committed sourceACI sourcePNI)
              w5 (actions.promoteMembersPendingPniAciProfileKey.getD [])

/-- ServerGroup.modify: assert a truthy declared version (0 and absent both
fail), read the committed snapshot, process all sub-actions on the working
copy, then check the version precondition; a mismatch returns conflict with
no mutation, a match signs the accumulator and appends the single terminal
change-log entry. -/
def ServerGroup.modify (g : ServerGroup) (sourceACI sourcePNI : Bytes)
    (actions : IActions) (now : Nat) :
    Except GroupError (ModifyGroupResult × ServerGroup) :=
  match actions.version with
  | none => .error (.assertionFailed "Actions should have a new version")
  | some v =>
    if v = 0 then
      .error (.assertionFailed "Actions should have a new version")
    else
      match g.stateQ with
      | none => .error (.assertionFailed "Group must have the last state")
      | some committed =>
        match applyActions committed sourceACI sourcePNI actions now v with
        | .error e => .error e
        | .ok w =>
          match committed.version with
          | none => .error (.assertionFailed "Group must have existing version")
          | some oldVersion =>
            if v = oldVersion + 1 then
              .ok (.applied { actions := w.applied
                              changeEpoch := w.changeEpoch
                              serverSignature := g.zkSign w.applied },
                   { g with privChanges := g.privChanges
                       ++ [ { groupChange := some { actions := w.applied
                                                    changeEpoch := w.changeEpoch
                                                    serverSignature := none }
                              groupState := some w.newState } ] })
            else
              .ok (.conflict, g)

/-- The group observed after a modify call: the source mutates this.privChanges
only by the terminal push, so a thrown error leaves the instance as it was. -/
def afterModify (g : ServerGroup) (sourceACI sourcePNI : Bytes)
    (actions : IActions) (now : Nat) : ServerGroup :=
  match g.modify sourceACI sourcePNI actions now with
  | .ok (_, g1) => g1
  | .error _ => g

/-- True when the modify call committed (returned applied, not conflict). -/
def modifySucceeded (g : ServerGroup) (sourceACI sourcePNI : Bytes)
    (actions : IActions) (now : Nat) : Bool :=
  match g.modify sourceACI sourcePNI actions now with
  | .ok (.applied _, _) => true
  | _ => false

/-- Groups reachable by construction followed by any sequence of modify calls
that return normally. -/
inductive Reachable : ServerGroup → Prop
  | constructed (opts : ServerGroupOptions) (g : ServerGroup) :
      constructGroup opts = .ok g → Reachable g
  | modified (g : ServerGroup) (sourceACI sourcePNI : Bytes) (actions : IActions)
      (now : Nat) (res : ModifyGroupResult) (g1 : ServerGroup) :
      Reachable g →
      g.modify sourceACI sourcePNI actions now = .ok (res, g1) →
      Reachable g1

/-- The userIds of the active members of a snapshot. -/
def memberIds (s : IGroup) : List Bytes :=
  (s.members.getD []).filterMap (fun m => m.userId)

/-- The userIds of the pending members of a snapshot. -/
def pendingIds (s : IGroup) : List Bytes :=
  (s.membersPendingProfileKey.getD []).filterMap (fun pm =>
    pm.member.bind (fun m => m.userId))

/-- No userId occurs both among active members and among pending members. -/
def disjointIds (s : IGroup) : Bool :=
  (memberIds s).all (fun u => decide (¬(u ∈ pendingIds s)))

/-- A snapshot with every field absent (used as a getD fallback). -/
def emptyIGroup : IGroup :=
  { publicKey := none
    version := none
    title := none
    accessControl := none
    members := none
    membersPendingProfileKey := none }


/-! ## Generic lemmas about sequential sub-action processing -/

/-- A property preserved by every successful step is preserved by a
successful run of the whole list. -/
lemma runSteps_preserves {a : Type} (P : Working -> Prop)
    (f : Working -> a -> Except GroupError Working)
    (hf : forall w x w1, f w x = .ok w1 -> P w -> P w1) :
    forall (l : List a) (w w1), runSteps f w l = .ok w1 -> P w -> P w1 := by
  intro l
  induction l with
  | nil =>
    intro w w1 h hw
    simp only [runSteps] at h
    cases h
    exact hw
  | cons b t ih =>
    intro w w1 h hw
    cases hfb : f w b with
    | error e => simp only [runSteps, hfb] at h; cases h
    | ok wb =>
      simp only [runSteps, hfb] at h
      exact ih wb w1 h (hf w b wb hfb hw)

/-- If one element of the list fails from every working state, the whole run
fails. -/
lemma runSteps_error_of_elem {a : Type} (f : Working -> a -> Except GroupError Working)
    (x : a) (hx : forall w, exists e, f w x = .error e) :
    forall (l : List a), x ∈ l -> forall w, exists e, runSteps f w l = .error e := by
  intro l
  induction l with
  | nil => intro h; cases h
  | cons b t ih =>
    intro hmem w
    rcases List.mem_cons.mp hmem with rfl | hmem1
    · obtain ⟨e, he⟩ := hx w
      exact ⟨e, by simp only [runSteps, he]⟩
    · cases hfb : f w b with
      | error e => exact ⟨e, by simp only [runSteps, hfb]⟩
      | ok wb =>
        obtain ⟨e, he⟩ := ih hmem1 wb
        exact ⟨e, by simp only [runSteps, hfb, he]⟩

/-- If processing the element x always establishes P and every step preserves
P, then a successful run of a list containing x ends in a state satisfying P. -/
lemma runSteps_establishes {a : Type} (P : Working -> Prop)
    (f : Working -> a -> Except GroupError Working) (x : a)
    (hpres : forall w y w1, f w y = .ok w1 -> P w -> P w1)
    (hest : forall w w1, f w x = .ok w1 -> P w1) :
    forall (l : List a) (w w1), x ∈ l -> runSteps f w l = .ok w1 -> P w1 := by
  intro l
  induction l with
  | nil => intro w w1 h; cases h
  | cons b t ih =>
    intro w w1 hmem hrun
    cases hfb : f w b with
    | error e => simp only [runSteps, hfb] at hrun; cases hrun
    | ok wb =>
      simp only [runSteps, hfb] at hrun
      rcases List.mem_cons.mp hmem with rfl | hmem1
      · exact runSteps_preserves P f hpres t wb w1 hrun (hest w wb hfb)
      · exact ih wb w1 hmem1 hrun

/-- A successful run processes every element of the list successfully from
some intermediate state. -/
lemma runSteps_ok_of_mem {a : Type} (f : Working -> a -> Except GroupError Working) :
    forall (l : List a) (w w1), runSteps f w l = .ok w1 -> forall x, x ∈ l ->
      exists wa wb, f wa x = .ok wb := by
  intro l
  induction l with
  | nil => intro w w1 h x hx; cases hx
  | cons b t ih =>
    intro w w1 h x hx
    cases hfb : f w b with
    | error e => simp only [runSteps, hfb] at h; cases h
    | ok wb =>
      simp only [runSteps, hfb] at h
      rcases List.mem_cons.mp hx with rfl | hx1
      · exact ⟨w, wb, hfb⟩
      · exact ih wb w1 h x hx1

/-! ## Lemmas about member unrolling -/

lemma unrollAll_error_of_elem (m : IMember) (he : exists e, unrollMember m = .error e) :
    forall (l : List IMember), m ∈ l -> exists e, unrollAll l = .error e := by
  intro l
  induction l with
  | nil => intro h; cases h
  | cons b t ih =>
    intro hmem
    rcases List.mem_cons.mp hmem with rfl | hmem1
    · obtain ⟨e, hee⟩ := he
      exact ⟨e, by simp only [unrollAll, hee]⟩
    · cases hb : unrollMember b with
      | error e => exact ⟨e, by simp only [unrollAll, hb]⟩
      | ok b1 =>
        obtain ⟨e, hee⟩ := ih hmem1
        exact ⟨e, by simp only [unrollAll, hb, hee]⟩

lemma unrollAll_ok_mem :
    forall (l l1 : List IMember), unrollAll l = .ok l1 ->
      forall b, b ∈ l1 -> exists a, a ∈ l ∧ unrollMember a = .ok b := by
  intro l
  induction l with
  | nil =>
    intro l1 h b hb
    simp only [unrollAll] at h
    cases h
    cases hb
  | cons m t ih =>
    intro l1 h b hb
    cases hm : unrollMember m with
    | error e => simp only [unrollAll, hm] at h; cases h
    | ok m1 =>
      cases ht : unrollAll t with
      | error e => simp only [unrollAll, hm, ht] at h; cases h
      | ok t1 =>
        simp only [unrollAll, hm, ht] at h
        cases h
        rcases List.mem_cons.mp hb with rfl | hb1
        · exact ⟨m, List.mem_cons_self m t, hm⟩
        · obtain ⟨x, hx, hxu⟩ := ih t1 ht b hb1
          exact ⟨x, List.mem_cons_of_mem m hx, hxu⟩


/-! ## Decomposition of applyActions and modify -/

/-- A successful applyActions run decomposes into the six successful stages in
source order. -/
lemma applyActions_ok_elim {committed : IGroup} {aci pni : Bytes} {actions : IActions}
    {now v : Nat} {w : Working}
    (h : applyActions committed aci pni actions now v = .ok w) :
    exists w1 w2 w3 w4 w5,
      titleStage (committed.getMember aci) (acAttributes committed) actions
        (initialWorking committed aci v) = .ok w1 ∧
      runSteps (deleteMemberStep committed (committed.getMember aci) (acMembers committed))
        w1 (actions.deleteMembers.getD []) = .ok w2 ∧
      runSteps (addPendingStep (committed.getMember aci) (acMembers committed) aci now)
        w2 (actions.addPendingMembers.getD []) = .ok w3 ∧
      runSteps (deletePendingStep committed aci pni)
        w3 (actions.deletePendingMembers.getD []) = .ok w4 ∧
      runSteps (promotePendingStep committed aci)
        w4 (actions.promotePendingMembers.getD []) = .ok w5 ∧
      runSteps (promotePniStep committed aci pni)
        w5 (actions.promoteMembersPendingPniAciProfileKey.getD []) = .ok w := by
  unfold applyActions at h
  cases h1 : titleStage (committed.getMember aci) (acAttributes committed) actions
      (initialWorking committed aci v) with
  | error e => simp only [h1] at h; cases h
  | ok w1 =>
    simp only [h1] at h
    cases h2 : runSteps (deleteMemberStep committed (committed.getMember aci) (acMembers committed))
        w1 (actions.deleteMembers.getD []) with
    | error e => simp only [h2] at h; cases h
    | ok w2 =>
      simp only [h2] at h
      cases h3 : runSteps (addPendingStep (committed.getMember aci) (acMembers committed) aci now)
          w2 (actions.addPendingMembers.getD []) with
      | error e => simp only [h3] at h; cases h
      | ok w3 =>
        simp only [h3] at h
        cases h4 : runSteps (deletePendingStep committed aci pni)
            w3 (actions.deletePendingMembers.getD []) with
        | error e => simp only [h4] at h; cases h
        | ok w4 =>
          simp only [h4] at h
          cases h5 : runSteps (promotePendingStep committed aci)
              w4 (actions.promotePendingMembers.getD []) with
          | error e => simp only [h5] at h; cases h
          | ok w5 =>
            simp only [h5] at h
            exact ⟨w1, w2, w3, w4, w5, rfl, h2, h3, h4, h5, h⟩

/-- If the deleteMembers stage fails from every working state, applyActions
fails. -/
lemma applyActions_error_of_deleteMembers {committed : IGroup} {aci pni : Bytes}
    {actions : IActions} {now v : Nat}
    (hs : forall w, exists e,
      runSteps (deleteMemberStep committed (committed.getMember aci) (acMembers committed))
        w (actions.deleteMembers.getD []) = .error e) :
    exists e, applyActions committed aci pni actions now v = .error e := by
  cases h1 : titleStage (committed.getMember aci) (acAttributes committed) actions
      (initialWorking committed aci v) with
  | error e => exact ⟨e, by simp only [applyActions, h1]⟩
  | ok w1 =>
    obtain ⟨e, he⟩ := hs w1
    exact ⟨e, by simp only [applyActions, h1, he]⟩

/-- If the addPendingMembers stage fails from every working state,
applyActions fails. -/
lemma applyActions_error_of_addPending {committed : IGroup} {aci pni : Bytes}
    {actions : IActions} {now v : Nat}
    (hs : forall w, exists e,
      runSteps (addPendingStep (committed.getMember aci) (acMembers committed) aci now)
        w (actions.addPendingMembers.getD []) = .error e) :
    exists e, applyActions committed aci pni actions now v = .error e := by
  cases h1 : titleStage (committed.getMember aci) (acAttributes committed) actions
      (initialWorking committed aci v) with
  | error e => exact ⟨e, by simp only [applyActions, h1]⟩
  | ok w1 =>
    cases h2 : runSteps (deleteMemberStep committed (committed.getMember aci) (acMembers committed))
        w1 (actions.deleteMembers.getD []) with
    | error e => exact ⟨e, by simp only [applyActions, h1, h2]⟩
    | ok w2 =>
      obtain ⟨e, he⟩ := hs w2
      exact ⟨e, by simp only [applyActions, h1, h2, he]⟩

/-- If the deletePendingMembers stage fails from every working state,
applyActions fails. -/
lemma applyActions_error_of_deletePending {committed : IGroup} {aci pni : Bytes}
    {actions : IActions} {now v : Nat}
    (hs : forall w, exists e,
      runSteps (deletePendingStep committed aci pni)
        w (actions.deletePendingMembers.getD []) = .error e) :
    exists e, applyActions committed aci pni actions now v = .error e := by
  cases h1 : titleStage (committed.getMember aci) (acAttributes committed) actions
      (initialWorking committed aci v) with
  | error e => exact ⟨e, by simp only [applyActions, h1]⟩
  | ok w1 =>
    cases h2 : runSteps (deleteMemberStep committed (committed.getMember aci) (acMembers committed))
        w1 (actions.deleteMembers.getD []) with
    | error e => exact ⟨e, by simp only [applyActions, h1, h2]⟩
    | ok w2 =>
      cases h3 : runSteps (addPendingStep (committed.getMember aci) (acMembers committed) aci now)
          w2 (actions.addPendingMembers.getD []) with
      | error e => exact ⟨e, by simp only [applyActions, h1, h2, h3]⟩
      | ok w3 =>
        obtain ⟨e, he⟩ := hs w3
        exact ⟨e, by simp only [applyActions, h1, h2, h3, he]⟩

/-- If the promotePendingMembers stage fails from every working state,
applyActions fails. -/
lemma applyActions_error_of_promote {committed : IGroup} {aci pni : Bytes}
    {actions : IActions} {now v : Nat}
    (hs : forall w, exists e,
      runSteps (promotePendingStep committed aci)
        w (actions.promotePendingMembers.getD []) = .error e) :
    exists e, applyActions committed aci pni actions now v = .error e := by
  cases h1 : titleStage (committed.getMember aci) (acAttributes committed) actions
      (initialWorking committed aci v) with
  | error e => exact ⟨e, by simp only [applyActions, h1]⟩
  | ok w1 =>
    cases h2 : runSteps (deleteMemberStep committed (committed.getMember aci) (acMembers committed))
        w1 (actions.deleteMembers.getD []) with
    | error e => exact ⟨e, by simp only [applyActions, h1, h2]⟩
    | ok w2 =>
      cases h3 : runSteps (addPendingStep (committed.getMember aci) (acMembers committed) aci now)
          w2 (actions.addPendingMembers.getD []) with
      | error e => exact ⟨e, by simp only [applyActions, h1, h2, h3]⟩
      | ok w3 =>
        cases h4 : runSteps (deletePendingStep committed aci pni)
            w3 (actions.deletePendingMembers.getD []) with
        | error e => exact ⟨e, by simp only [applyActions, h1, h2, h3, h4]⟩
        | ok w4 =>
          obtain ⟨e, he⟩ := hs w4
          exact ⟨e, by simp only [applyActions, h1, h2, h3, h4, he]⟩

/-- If applyActions fails whenever it is reached, modify fails. -/
lemma modify_error_of_applyActions {g : ServerGroup} {aci pni : Bytes}
    {actions : IActions} {now : Nat}
    (hs : forall committed v, g.stateQ = some committed -> actions.version = some v ->
      ¬(v = 0) -> exists e, applyActions committed aci pni actions now v = .error e) :
    exists e, g.modify aci pni actions now = .error e := by
  cases hv : actions.version with
  | none =>
    exact ⟨.assertionFailed "Actions should have a new version",
      by simp only [ServerGroup.modify, hv]⟩
  | some v =>
    by_cases h0 : v = 0
    · refine ⟨.assertionFailed "Actions should have a new version", ?_⟩
      simp only [ServerGroup.modify, hv]
      rw [if_pos h0]
    · cases hst : g.stateQ with
      | none =>
        exact ⟨.assertionFailed "Group must have the last state",
          by simp only [ServerGroup.modify, hv, if_neg h0, hst]⟩
      | some committed =>
        obtain ⟨e, he⟩ := hs committed v hst hv h0
        exact ⟨e, by simp only [ServerGroup.modify, hv, if_neg h0, hst, he]⟩

/-- Full case analysis of a modify call that returns normally. -/
lemma modify_ok_elim {g : ServerGroup} {aci pni : Bytes} {actions : IActions} {now : Nat}
    {res : ModifyGroupResult} {g1 : ServerGroup}
    (h : g.modify aci pni actions now = .ok (res, g1)) :
    exists v committed w oldVersion,
      actions.version = some v ∧ ¬(v = 0) ∧ g.stateQ = some committed ∧
      applyActions committed aci pni actions now v = .ok w ∧
      committed.version = some oldVersion ∧
      ((v = oldVersion + 1 ∧
        res = .applied { actions := w.applied
                         changeEpoch := w.changeEpoch
                         serverSignature := g.zkSign w.applied } ∧
        g1 = { g with privChanges := g.privChanges
                 ++ [ { groupChange := some { actions := w.applied
                                              changeEpoch := w.changeEpoch
                                              serverSignature := none }
                        groupState := some w.newState } ] }) ∨
       (¬(v = oldVersion + 1) ∧ res = .conflict ∧ g1 = g)) := by
  unfold ServerGroup.modify at h
  cases hv : actions.version with
  | none => simp only [hv] at h; cases h
  | some v =>
    simp only [hv] at h
    by_cases h0 : v = 0
    · rw [if_pos h0] at h
      cases h
    · rw [if_neg h0] at h
      cases hst : g.stateQ with
      | none => simp only [hst] at h; cases h
      | some committed =>
        simp only [hst] at h
        cases happ : applyActions committed aci pni actions now v with
        | error e => simp only [happ] at h; cases h
        | ok w =>
          simp only [happ] at h
          cases hov : committed.version with
          | none => simp only [hov] at h; cases h
          | some oldVersion =>
            simp only [hov] at h
            by_cases hcommit : v = oldVersion + 1
            · rw [if_pos hcommit] at h
              simp only [Except.ok.injEq, Prod.mk.injEq] at h
              exact ⟨v, committed, w, oldVersion, rfl, h0, rfl, happ, hov,
                Or.inl ⟨hcommit, h.1.symm, h.2.symm⟩⟩
            · rw [if_neg hcommit] at h
              simp only [Except.ok.injEq, Prod.mk.injEq] at h
              exact ⟨v, committed, w, oldVersion, rfl, h0, rfl, happ, hov,
                Or.inr ⟨hcommit, h.1.symm, h.2.symm⟩⟩


/-! ## The working snapshot version is set once and never changed by steps -/

lemma titleStage_version {am : Option IMember} {acc : Nat} {actions : IActions}
    {w w1 : Working} (h : titleStage am acc actions w = .ok w1) :
    w1.newState.version = w.newState.version := by
  unfold titleStage at h
  repeat' split at h
  all_goals cases h <;> rfl

lemma deleteMemberStep_version {committed : IGroup} {am : Option IMember} {acc : Nat}
    {w : Working} {d : DeleteMemberAction} {w1 : Working}
    (h : deleteMemberStep committed am acc w d = .ok w1) :
    w1.newState.version = w.newState.version := by
  unfold deleteMemberStep at h
  repeat' split at h
  all_goals cases h <;> rfl

lemma addPendingStep_version {am : Option IMember} {acc : Nat} {aci : Bytes} {now : Nat}
    {w : Working} {a : AddPendingMemberAction} {w1 : Working}
    (h : addPendingStep am acc aci now w a = .ok w1) :
    w1.newState.version = w.newState.version := by
  unfold addPendingStep at h
  repeat' split at h
  all_goals cases h <;> rfl

lemma deletePendingStep_version {committed : IGroup} {aci pni : Bytes}
    {w : Working} {d : DeletePendingMemberAction} {w1 : Working}
    (h : deletePendingStep committed aci pni w d = .ok w1) :
    w1.newState.version = w.newState.version := by
  unfold deletePendingStep at h
  repeat' split at h
  all_goals cases h <;> rfl

lemma promotePendingStep_version {committed : IGroup} {aci : Bytes}
    {w : Working} {p : PromotePendingMemberAction} {w1 : Working}
    (h : promotePendingStep committed aci w p = .ok w1) :
    w1.newState.version = w.newState.version := by
  unfold promotePendingStep at h
  repeat' split at h
  all_goals cases h <;> rfl

lemma promotePniStep_version {committed : IGroup} {aci pni : Bytes}
    {w : Working} {p : PromotePendingMemberAction} {w1 : Working}
    (h : promotePniStep committed aci pni w p = .ok w1) :
    w1.newState.version = w.newState.version := by
  unfold promotePniStep at h
  repeat' split at h
  all_goals cases h <;> rfl

/-- The committed working snapshot of a successful applyActions run carries
the declared version. -/
lemma applyActions_version {committed : IGroup} {aci pni : Bytes} {actions : IActions}
    {now v : Nat} {w : Working}
    (h : applyActions committed aci pni actions now v = .ok w) :
    w.newState.version = some v := by
  obtain ⟨w1, w2, w3, w4, w5, h1, h2, h3, h4, h5, h6⟩ := applyActions_ok_elim h
  have p1 : w1.newState.version = some v := titleStage_version h1
  have p2 : w2.newState.version = some v :=
    runSteps_preserves (fun x => x.newState.version = some v) _
      (fun wx a wy hh hp => (deleteMemberStep_version hh).trans hp) _ _ _ h2 p1
  have p3 : w3.newState.version = some v :=
    runSteps_preserves (fun x => x.newState.version = some v) _
      (fun wx a wy hh hp => (addPendingStep_version hh).trans hp) _ _ _ h3 p2
  have p4 : w4.newState.version = some v :=
    runSteps_preserves (fun x => x.newState.version = some v) _
      (fun wx a wy hh hp => (deletePendingStep_version hh).trans hp) _ _ _ h4 p3
  have p5 : w5.newState.version = some v :=
    runSteps_preserves (fun x => x.newState.version = some v) _
      (fun wx a wy hh hp => (promotePendingStep_version hh).trans hp) _ _ _ h5 p4
  exact runSteps_preserves (fun x => x.newState.version = some v) _
    (fun wx a wy hh hp => (promotePniStep_version hh).trans hp) _ _ _ h6 p5


/-! ## The change-log invariant: entry i holds the version-i snapshot -/

/-- Success-shape of the constructor. -/
lemma constructGroup_ok_elim {opts : ServerGroupOptions} {g : ServerGroup}
    (h : constructGroup opts = .ok g) :
    exists pk ac ms unrolled,
      opts.state.publicKey = some pk ∧
      opts.state.version = some 0 ∧
      opts.state.accessControl = some ac ∧
      (ac.attributes.isSome && ac.members.isSome && ac.addFromInviteLink.isSome) = true ∧
      opts.state.members = some ms ∧ ms.isEmpty = false ∧
      unrollAll ms = .ok unrolled ∧
      g = { publicParams := pk
            zkSign := opts.zkSign
            privChanges := [ { groupChange := none
                               groupState := some { publicKey := opts.state.publicKey
                                                    version := opts.state.version
                                                    title := opts.state.title
                                                    accessControl := opts.state.accessControl
                                                    members := some unrolled
                                                    membersPendingProfileKey := opts.state.membersPendingProfileKey } } ] } := by
  unfold constructGroup at h
  cases hpk : opts.state.publicKey with
  | none => simp only [hpk] at h; cases h
  | some pk =>
    simp only [hpk] at h
    by_cases hv0 : opts.state.version = some 0
    · rw [if_pos hv0] at h
      cases hac : opts.state.accessControl with
      | none => simp only [hac] at h; cases h
      | some ac =>
        simp only [hac] at h
        by_cases hcfg : (ac.attributes.isSome && ac.members.isSome && ac.addFromInviteLink.isSome) = true
        · rw [if_pos hcfg] at h
          cases hms : opts.state.members with
          | none => simp only [hms] at h; cases h
          | some ms =>
            simp only [hms] at h
            by_cases hne : ms.isEmpty = true
            · rw [if_pos hne] at h
              cases h
            · rw [if_neg hne] at h
              cases hun : unrollAll ms with
              | error e => simp only [hun] at h; cases h
              | ok unrolled =>
                simp only [hun] at h
                cases h
                exact ⟨pk, ac, ms, unrolled, rfl, hv0, rfl, hcfg, rfl,
                  Bool.not_eq_true _ ▸ hne, hun, rfl⟩
        · rw [if_neg hcfg] at h
          cases h
    · rw [if_neg hv0] at h
      cases h

/-- The change-log invariant. -/
def logOk (g : ServerGroup) : Prop :=
  g.privChanges ≠ [] ∧
  forall i (h : i < g.privChanges.length),
    exists s, (g.privChanges.get ⟨i, h⟩).groupState = some s ∧ s.version = some i

/-- The snapshot accessor returns the tail snapshot, whose version is the log
length minus one. -/
lemma stateQ_of_logOk {g : ServerGroup} (h : logOk g) :
    exists s, g.stateQ = some s ∧ s.version = some (g.privChanges.length - 1) := by
  obtain ⟨hne, hidx⟩ := h
  have hlen : 0 < g.privChanges.length := List.length_pos.mpr hne
  have hl : g.privChanges.length - 1 < g.privChanges.length := Nat.sub_lt hlen one_pos
  obtain ⟨s, hs, hv⟩ := hidx (g.privChanges.length - 1) hl
  refine ⟨s, ?_, hv⟩
  have hgl : g.privChanges.getLast? = some (g.privChanges.getLast hne) :=
    List.getLast?_eq_getLast _ hne
  simp only [ServerGroup.stateQ, hgl]
  rw [List.getLast_eq_getElem]
  simpa [List.get_eq_getElem] using hs

/-- The group after a committed modify: its snapshot is the appended one. -/
lemma stateQ_concat (g : ServerGroup) (entry : GroupChangeEntry) :
    (ServerGroup.stateQ { g with privChanges := g.privChanges ++ [entry] }) = entry.groupState := by
  simp only [ServerGroup.stateQ, List.getLast?_concat]

/-- Every reachable group satisfies the change-log invariant. -/
lemma reachable_logOk {g : ServerGroup} (h : Reachable g) : logOk g := by
  induction h with
  | constructed opts g hc =>
    obtain ⟨pk, ac, ms, unrolled, hpk, hv0, hac, hcfg, hms, hemp, hun, hg⟩ :=
      constructGroup_ok_elim hc
    subst hg
    refine ⟨by simp, ?_⟩
    intro i hi
    simp only [List.length_singleton] at hi
    have hz : i = 0 := Nat.lt_one_iff.mp hi
    subst hz
    exact ⟨_, rfl, hv0⟩
  | modified g aci pni actions now res g1 hr hm ih =>
    obtain ⟨v, committed, w, oldVersion, hv, h0, hst, happ, hov, hcase⟩ := modify_ok_elim hm
    rcases hcase with ⟨heq, hres, hg1⟩ | ⟨hne2, hres, hg1⟩
    · obtain ⟨s, hsq, hsv⟩ := stateQ_of_logOk ih
      rw [hst] at hsq
      cases hsq
      rw [hov] at hsv
      have hold : oldVersion = g.privChanges.length - 1 := Option.some.inj hsv
      obtain ⟨hnonempty, hidx⟩ := ih
      have hlen : 0 < g.privChanges.length := List.length_pos.mpr hnonempty
      subst hg1
      constructor
      · simp
      · intro i hi
        simp only [List.length_append, List.length_singleton] at hi
        rcases Nat.lt_succ_iff_lt_or_eq.mp hi with hlt | hty
        · obtain ⟨s1, hs1, hv1⟩ := hidx i hlt
          refine ⟨s1, ?_, hv1⟩
          simp only [List.get_eq_getElem] at hs1 ⊢
          rw [List.getElem_append_left hlt]
          exact hs1
        · subst hty
          refine ⟨w.newState, ?_, ?_⟩
          · simp only [List.get_eq_getElem]
            simp
          · rw [applyActions_version happ, heq, hold]
            congr 1
            omega
    · rw [hg1]
      exact ih


/-! ## Shape lemmas for unrollMember and a small Except helper -/

lemma unrollMember_ok_elim {m m1 : IMember} (h : unrollMember m = .ok m1) :
    exists role p, m.role = some role ∧ m.presentation = some p ∧ p.valid = true ∧
      m1 = { role := some role
             userId := some p.uuid
             profileKey := some p.profileKey
             presentation := none } := by
  unfold unrollMember at h
  cases hr : m.role with
  | none => simp only [hr] at h; cases h
  | some role =>
    simp only [hr] at h
    cases hp : m.presentation with
    | none => simp only [hp] at h; cases h
    | some p =>
      simp only [hp] at h
      by_cases hv : p.valid = true
      · rw [if_pos hv] at h
        cases h
        exact ⟨role, p, rfl, rfl, hv, rfl⟩
      · rw [if_neg hv] at h
        cases h

lemma unrollMember_error_of_invalid {m : IMember} {p : Presentation}
    (hp : m.presentation = some p) (hv : p.valid = false) :
    exists e, unrollMember m = .error e := by
  unfold unrollMember
  cases hr : m.role with
  | none =>
    refine ⟨.assertionFailed "Group member role is undefined", ?_⟩
    simp only [hr]
  | some role =>
    refine ⟨.thrown "Credential presentation failed verification", ?_⟩
    simp only [hr, hp, hv]
    rfl

lemma except_error_of_not_ok {e b : Type} (x : Except e b) (h : forall y, ¬(x = .ok y)) :
    exists err, x = .error err := by
  cases x with
  | error err => exact ⟨err, rfl⟩
  | ok y => exact absurd rfl (h y)

/-! ## Concrete groups and action bundles used as witnesses -/

/-- A trivial signer collaborator for concrete runs. -/
def zeroSign : AppliedActions -> Bytes := fun _ => 0

def accessAll1 : AccessControl :=
  { attributes := some 1, members := some 1, addFromInviteLink := some 1 }

def presentation10 : Presentation := { valid := true, uuid := 10, profileKey := 20 }

def inputAdmin10 : IMember :=
  { role := some 2, userId := none, profileKey := none, presentation := some presentation10 }

def member10 : IMember :=
  { role := some 2, userId := some 10, profileKey := some 20, presentation := none }

def state0 : IGroup :=
  { publicKey := some 1
    version := some 0
    title := none
    accessControl := some accessAll1
    members := some [inputAdmin10]
    membersPendingProfileKey := none }

def opts0 : ServerGroupOptions := { zkSign := zeroSign, state := state0 }

def committed0 : IGroup :=
  { publicKey := some 1
    version := some 0
    title := none
    accessControl := some accessAll1
    members := some [member10]
    membersPendingProfileKey := none }

def g0 : ServerGroup :=
  { publicParams := 1
    zkSign := zeroSign
    privChanges := [ { groupChange := none, groupState := some committed0 } ] }

/-- An action bundle with only a declared version. -/
def emptyActions (v : Nat) : IActions :=
  { version := some v
    sourceUuid := none
    modifyTitle := none
    deleteMembers := none
    addPendingMembers := none
    deletePendingMembers := none
    promotePendingMembers := none
    promoteMembersPendingPniAciProfileKey := none }

def pendingAdd10 : AddPendingMemberAction :=
  { added := some { member := some { role := some 1
                                     userId := some 10
                                     profileKey := none
                                     presentation := none }
                    addedByUserId := none
                    timestamp := 0 } }

/-- Bundle: add user 10 (already an active member) to the pending set. -/
def acts3 : IActions := { emptyActions 1 with addPendingMembers := some [pendingAdd10] }

/-- Bundle: add pending user 10 and then delete pending user 10 in the same call. -/
def acts4 : IActions := { acts3 with deletePendingMembers := some [ { deletedUserId := some 10 } ] }

/-- Group with attributes access restricted to administrators and a single
DEFAULT-role member. -/
def accessAdminAttrs : AccessControl :=
  { attributes := some 3, members := some 1, addFromInviteLink := some 1 }

def inputDefault10 : IMember :=
  { role := some 1, userId := none, profileKey := none, presentation := some presentation10 }

def memberDefault10 : IMember :=
  { role := some 1, userId := some 10, profileKey := some 20, presentation := none }

def stateA : IGroup :=
  { state0 with accessControl := some accessAdminAttrs, members := some [inputDefault10] }

def optsA : ServerGroupOptions := { zkSign := zeroSign, state := stateA }

def committedA : IGroup :=
  { committed0 with accessControl := some accessAdminAttrs, members := some [memberDefault10] }

def gA : ServerGroup :=
  { publicParams := 1
    zkSign := zeroSign
    privChanges := [ { groupChange := none, groupState := some committedA } ] }

/-- Bundle with a conflicting declared version and a title change. -/
def actsA : IActions := { emptyActions 5 with modifyTitle := some { title := some 42 } }

/-- Group whose members access level is UNSATISFIABLE. -/
def accessUnsat : AccessControl :=
  { attributes := some 1, members := some 4, addFromInviteLink := some 4 }

def state5 : IGroup := { state0 with accessControl := some accessUnsat }

def opts5 : ServerGroupOptions := { zkSign := zeroSign, state := state5 }

def committed5 : IGroup := { committed0 with accessControl := some accessUnsat }

def g5 : ServerGroup :=
  { publicParams := 1
    zkSign := zeroSign
    privChanges := [ { groupChange := none, groupState := some committed5 } ] }

/-- Bundle: the sole member deletes their own record. -/
def acts5 : IActions := { emptyActions 1 with deleteMembers := some [ { deletedUserId := some 10 } ] }

/-- Group with a pending member (user 30) awaiting promotion. -/
def pending30 : IPendingMember :=
  { member := some { role := some 1, userId := some 30, profileKey := none, presentation := none }
    addedByUserId := some 10
    timestamp := 0 }

def state7 : IGroup := { state0 with membersPendingProfileKey := some [pending30] }

def opts7 : ServerGroupOptions := { zkSign := zeroSign, state := state7 }

def committed7 : IGroup := { committed0 with membersPendingProfileKey := some [pending30] }

def g7 : ServerGroup :=
  { publicParams := 1
    zkSign := zeroSign
    privChanges := [ { groupChange := none, groupState := some committed7 } ] }

def pres30 : Presentation := { valid := true, uuid := 30, profileKey := 99 }

def promoteAct30 : PromotePendingMemberAction := { presentation := some pres30 }

/-- Bundle: user 30 promotes themself out of the pending set. -/
def acts7 : IActions := { emptyActions 1 with promotePendingMembers := some [promoteAct30] }

def fallbackSigned : SignedGroupChange :=
  { actions := initialApplied 0 0, changeEpoch := 0, serverSignature := 0 }

/-- The signed change returned by a committed call (fallback otherwise). -/
def signedOf (g : ServerGroup) (aci pni : Bytes) (a : IActions) (now : Nat) : SignedGroupChange :=
  match g.modify aci pni a now with
  | .ok (.applied sc, _) => sc
  | _ => fallbackSigned


/-! ## Claim C6: the access evaluator -/

/-- Claim C6: verifyAccess allows whenever affectedUserId is provided and
equals the acting member's userId, independent of the required level;
otherwise it allows unconditionally under ANY, allows under MEMBER iff the
acting identity is a current member, allows under ADMINISTRATOR iff the
acting member's role is ADMINISTRATOR, and always denies under UNSATISFIABLE
and under UNKNOWN.  The evaluator is a pure function in this embedding,
mirroring the source, which reads its arguments and never writes any state. -/
theorem c6_verifyAccess_characterization (attr : String) (member : Option IMember)
    (access : Nat) (affectedUserId : Option Bytes) :
    (isSelfTarget member affectedUserId = true →
      verifyAccess attr member access affectedUserId = .ok ()) ∧
    (isSelfTarget member affectedUserId = false →
      ((access = AccessRequired.ANY →
          verifyAccess attr member access affectedUserId = .ok ()) ∧
       (access = AccessRequired.MEMBER →
          (verifyAccess attr member access affectedUserId = .ok () ↔ member.isSome = true)) ∧
       (access = AccessRequired.ADMINISTRATOR →
          (verifyAccess attr member access affectedUserId = .ok () ↔
            exists m, member = some m ∧ m.role = some Role.ADMINISTRATOR)) ∧
       (access = AccessRequired.UNSATISFIABLE →
          ¬(verifyAccess attr member access affectedUserId = .ok ())) ∧
       (access = AccessRequired.UNKNOWN →
          ¬(verifyAccess attr member access affectedUserId = .ok ())))) := by
  constructor
  · intro hself
    unfold verifyAccess
    rw [if_pos hself]
  · intro hself
    have hns : ¬(isSelfTarget member affectedUserId = true) := by
      rw [hself]; exact Bool.false_ne_true
    refine ⟨?_, ?_, ?_, ?_, ?_⟩
    · intro ha
      subst ha
      unfold verifyAccess
      rw [if_neg hns, if_pos rfl]
    · intro ha
      subst ha
      unfold verifyAccess
      rw [if_neg hns, if_neg (by decide), if_pos rfl]
      cases member with
      | none => simp
      | some m => simp
    · intro ha
      subst ha
      unfold verifyAccess
      rw [if_neg hns, if_neg (by decide), if_neg (by decide), if_pos rfl]
      cases member with
      | none => simp
      | some m =>
        by_cases hrole : m.role = some Role.ADMINISTRATOR
        · simp [hrole]
        · simp [hrole]
    · intro ha
      subst ha
      unfold verifyAccess
      rw [if_neg hns, if_neg (by decide), if_neg (by decide), if_neg (by decide), if_pos rfl]
      simp
    · intro ha
      subst ha
      unfold verifyAccess
      rw [if_neg hns, if_neg (by decide), if_neg (by decide), if_neg (by decide),
        if_neg (by decide), if_pos rfl]
      simp

/-- Witness for C6: the ADMINISTRATOR branch on a concrete administrator. -/
theorem c6_witness :
    verifyAccess "title" (some member10) AccessRequired.ADMINISTRATOR none = .ok () :=
  (((c6_verifyAccess_characterization "title" (some member10)
      AccessRequired.ADMINISTRATOR none).2 (by decide)).2.2.1 rfl).mpr
    ⟨member10, rfl, rfl⟩

/-! ## Claim C9: construction validation and verified extraction -/

/-- Claim C9: construction fails for version not 0, a missing public key, an
access control with any of the three levels missing, an empty (or missing)
member list, or any member whose credential presentation fails verification;
on success every member's userId and profileKey are the values extracted from
that member's verified presentation, never the raw input fields. -/
theorem c9_construction (opts : ServerGroupOptions) :
    (opts.state.version ≠ some 0 → exists e, constructGroup opts = .error e) ∧
    (opts.state.publicKey = none → exists e, constructGroup opts = .error e) ∧
    (opts.state.accessControl = none → exists e, constructGroup opts = .error e) ∧
    (forall ac, opts.state.accessControl = some ac →
      (ac.attributes = none ∨ ac.members = none ∨ ac.addFromInviteLink = none) →
      exists e, constructGroup opts = .error e) ∧
    ((opts.state.members = none ∨ opts.state.members = some []) →
      exists e, constructGroup opts = .error e) ∧
    (forall ms m p, opts.state.members = some ms → m ∈ ms →
      m.presentation = some p → p.valid = false →
      exists e, constructGroup opts = .error e) ∧
    (forall g, constructGroup opts = .ok g →
      exists s unrolled, g.stateQ = some s ∧ s.members = some unrolled ∧
        forall m1, m1 ∈ unrolled →
          exists m p, m ∈ opts.state.members.getD [] ∧
            m.presentation = some p ∧ p.valid = true ∧
            m1.role = m.role ∧ m1.userId = some p.uuid ∧
            m1.profileKey = some p.profileKey ∧ m1.presentation = none) := by
  refine ⟨?_, ?_, ?_, ?_, ?_, ?_, ?_⟩
  · intro hver
    refine except_error_of_not_ok _ (fun g hok => ?_)
    obtain ⟨pk, ac, ms, unrolled, hpk, hv0, _, _, _, _, _, _⟩ := constructGroup_ok_elim hok
    exact hver hv0
  · intro hpk0
    refine except_error_of_not_ok _ (fun g hok => ?_)
    obtain ⟨pk, ac, ms, unrolled, hpk, _, _, _, _, _, _, _⟩ := constructGroup_ok_elim hok
    rw [hpk0] at hpk
    cases hpk
  · intro hac0
    refine except_error_of_not_ok _ (fun g hok => ?_)
    obtain ⟨pk, ac, ms, unrolled, _, _, hac, _, _, _, _, _⟩ := constructGroup_ok_elim hok
    rw [hac0] at hac
    cases hac
  · intro ac hac0 hmiss
    refine except_error_of_not_ok _ (fun g hok => ?_)
    obtain ⟨pk, ac1, ms, unrolled, _, _, hac, hcfg, _, _, _, _⟩ := constructGroup_ok_elim hok
    rw [hac0] at hac
    cases hac
    rcases hmiss with hmiss | hmiss | hmiss <;> simp [hmiss] at hcfg
  · intro hmem
    refine except_error_of_not_ok _ (fun g hok => ?_)
    obtain ⟨pk, ac, ms, unrolled, _, _, _, _, hms, hemp, _, _⟩ := constructGroup_ok_elim hok
    rcases hmem with hmem | hmem
    · rw [hmem] at hms
      cases hms
    · rw [hmem] at hms
      cases hms
      simp at hemp
  · intro ms m p hms hmem hp hv
    refine except_error_of_not_ok _ (fun g hok => ?_)
    obtain ⟨pk, ac, ms1, unrolled, _, _, _, _, hms1, _, hun, _⟩ := constructGroup_ok_elim hok
    rw [hms] at hms1
    cases hms1
    obtain ⟨e, he⟩ := unrollAll_error_of_elem m (unrollMember_error_of_invalid hp hv) ms hmem
    rw [he] at hun
    cases hun
  · intro g hok
    obtain ⟨pk, ac, ms, unrolled, hpk, hv0, hac, hcfg, hms, hemp, hun, hg⟩ :=
      constructGroup_ok_elim hok
    subst hg
    refine ⟨_, unrolled, rfl, rfl, ?_⟩
    intro m1 hm1
    obtain ⟨m, hmmem, hmu⟩ := unrollAll_ok_mem ms unrolled hun m1 hm1
    obtain ⟨role, p, hrole, hp, hpv, hshape⟩ := unrollMember_ok_elim hmu
    subst hshape
    refine ⟨m, p, ?_, hp, hpv, hrole.symm, rfl, rfl, rfl⟩
    rw [hms]
    exact hmmem

/-- Witness for C9 at the concrete constructed group. -/
theorem c9_witness :
    exists s unrolled, g0.stateQ = some s ∧ s.members = some unrolled ∧
      forall m1, m1 ∈ unrolled →
        exists m p, m ∈ opts0.state.members.getD [] ∧
          m.presentation = some p ∧ p.valid = true ∧
          m1.role = m.role ∧ m1.userId = some p.uuid ∧
          m1.profileKey = some p.profileKey ∧ m1.presentation = none :=
  (c9_construction opts0).2.2.2.2.2.2 g0 rfl


/-! ## Claim C2: failure and conflict leave the committed state unchanged -/

/-- Claim C2: a modify call that does not commit leaves the group unchanged.
A thrown failure (validation, access, credential) never reaches the terminal
append, so the observed group is the original (afterModify); a Conflict
return hands back the very same group; and a successful call changes the
shared state only by appending one change-log entry. -/
theorem c2_modify_frame (g : ServerGroup) (aci pni : Bytes) (actions : IActions) (now : Nat) :
    (forall e, g.modify aci pni actions now = .error e →
      afterModify g aci pni actions now = g) ∧
    (forall g1, g.modify aci pni actions now = .ok (.conflict, g1) →
      g1 = g) ∧
    (forall sc g1, g.modify aci pni actions now = .ok (.applied sc, g1) →
      exists entry, g1.privChanges = g.privChanges ++ [entry] ∧
        g1.publicParams = g.publicParams ∧ g1.zkSign = g.zkSign) := by
  refine ⟨?_, ?_, ?_⟩
  · intro e he
    unfold afterModify
    rw [he]
  · intro g1 h
    obtain ⟨v, c, w, ov, _, _, _, _, _, hcase⟩ := modify_ok_elim h
    rcases hcase with ⟨_, hres, _⟩ | ⟨_, _, hg1⟩
    · cases hres
    · exact hg1
  · intro sc g1 h
    obtain ⟨v, c, w, ov, _, _, _, _, _, hcase⟩ := modify_ok_elim h
    rcases hcase with ⟨_, hres, hg1⟩ | ⟨_, hres, _⟩
    · exact ⟨_, by rw [hg1], by rw [hg1], by rw [hg1]⟩
    · cases hres

/-- Witness for C2: the committed call appends exactly one entry. -/
theorem c2_witness :
    exists entry, (afterModify g0 10 11 acts3 7).privChanges = g0.privChanges ++ [entry] ∧
      (afterModify g0 10 11 acts3 7).publicParams = g0.publicParams ∧
      (afterModify g0 10 11 acts3 7).zkSign = g0.zkSign :=
  (c2_modify_frame g0 10 11 acts3 7).2.2 (signedOf g0 10 11 acts3 7)
    (afterModify g0 10 11 acts3 7) rfl

/-! ## Claim C1: version conflicts (corrected) -/

/-- Counterexample to claim C1 as stated: gA is a constructed group at
version 0 whose attributes access level is ADMINISTRATOR; the bundle actsA
declares version 5 (≠ 0 + 1) and contains a title change by the
non-administrator member 10, so modify raises an access failure instead of
returning the Conflict value. -/
theorem c1_counterexample :
    constructGroup optsA = .ok gA ∧
    gA.stateQ = some committedA ∧ committedA.version = some 0 ∧
    actsA.version = some 5 ∧
    gA.modify 10 11 actsA 7 =
      .error (.assertionFailed "Must be an administrator to modify: title") :=
  ⟨rfl, rfl, rfl, rfl, rfl⟩

/-- Claim C1 amended: when modify RETURNS (raises no validation, access, or
credential failure) and the declared version differs from the committed
version + 1, the result is the Conflict value and the group - its change log
and snapshot - is exactly as before the call; in particular a bundle with a
truthy declared version and no sub-actions always returns Conflict without
raising. -/
theorem c1_amended (g : ServerGroup) (aci pni : Bytes) (actions : IActions) (now : Nat)
    (committed : IGroup) (v oldVersion : Nat)
    (hst : g.stateQ = some committed) (hv : actions.version = some v)
    (hov : committed.version = some oldVersion) (hne : v ≠ oldVersion + 1) :
    (forall res g1, g.modify aci pni actions now = .ok (res, g1) →
      res = .conflict ∧ g1 = g) ∧
    (v ≠ 0 → actions.modifyTitle = none → actions.deleteMembers = none →
     actions.addPendingMembers = none → actions.deletePendingMembers = none →
     actions.promotePendingMembers = none →
     actions.promoteMembersPendingPniAciProfileKey = none →
      g.modify aci pni actions now = .ok (.conflict, g)) := by
  constructor
  · intro res g1 h
    obtain ⟨v1, c1, w, ov1, hv1, h0, hst1, happ, hov1, hcase⟩ := modify_ok_elim h
    rw [hv] at hv1
    cases hv1
    rw [hst] at hst1
    cases hst1
    rw [hov] at hov1
    cases hov1
    rcases hcase with ⟨heq, _, _⟩ | ⟨_, hres, hg1⟩
    · exact absurd heq hne
    · exact ⟨hres, hg1⟩
  · intro h0 hT hD hA hDP hP hPni
    have happ : applyActions committed aci pni actions now v =
        .ok (initialWorking committed aci v) := by
      unfold applyActions titleStage
      simp only [hT, hD, hA, hDP, hP, hPni, Option.getD_none]
      rfl
    simp only [ServerGroup.modify, hv, if_neg h0, hst, happ, hov, if_neg hne]

/-- Witness for C1 amended: a concrete conflicting empty bundle. -/
theorem c1_amended_witness :
    g0.modify 10 11 (emptyActions 3) 7 = .ok (.conflict, g0) :=
  (c1_amended g0 10 11 (emptyActions 3) 7 committed0 3 0 rfl rfl rfl (by decide)).2
    (by decide) rfl rfl rfl rfl rfl rfl

/-! ## Claim C8: log index equals snapshot version; append-only commits -/

/-- Claim C8: for every reachable group the change-log entry at index i holds
the snapshot of version i; a committed modify appends exactly one entry whose
version is the previous committed version plus one, and the entries already
in the log are untouched (the old log is literally the prefix of the new). -/
theorem c8_log_versions {g : ServerGroup} (hr : Reachable g) :
    (forall i (h : i < g.privChanges.length),
      exists s, (g.privChanges.get ⟨i, h⟩).groupState = some s ∧ s.version = some i) ∧
    (forall aci pni actions now sc g1,
      g.modify aci pni actions now = .ok (.applied sc, g1) →
      exists entry s committed oldVersion,
        g.stateQ = some committed ∧ committed.version = some oldVersion ∧
        g1.privChanges = g.privChanges ++ [entry] ∧
        g1.privChanges.take g.privChanges.length = g.privChanges ∧
        entry.groupState = some s ∧ s.version = some (oldVersion + 1)) := by
  have hlog := reachable_logOk hr
  constructor
  · exact hlog.2
  · intro aci pni actions now sc g1 h
    obtain ⟨v, committed, w, oldVersion, hv, h0, hst, happ, hov, hcase⟩ := modify_ok_elim h
    rcases hcase with ⟨heq, hres, hg1⟩ | ⟨_, hres, _⟩
    · refine ⟨{ groupChange := some { actions := w.applied
                                      changeEpoch := w.changeEpoch
                                      serverSignature := none }
                groupState := some w.newState },
        w.newState, committed, oldVersion, hst, hov, ?_, ?_, rfl, ?_⟩
      · rw [hg1]
      · rw [hg1]
        exact List.take_left _ _
      · rw [applyActions_version happ, heq]
    · cases hres

/-- Witness for C8 at the seeded log of the concrete constructed group. -/
theorem c8_witness :
    exists s, (g0.privChanges.get ⟨0, by decide⟩).groupState = some s ∧ s.version = some 0 :=
  (c8_log_versions (Reachable.constructed opts0 g0 rfl)).1 0 (by decide)

/-! ## Claim C10: the snapshot accessor is the log tail -/

/-- Claim C10: the state accessor returns exactly the groupState of the last
change-log entry; the constructor seeds the log with one entry holding the
verified initial state, and every committed modify appends its new snapshot
at the tail, so the accessor and the log tail never disagree on any
reachable group. -/
theorem c10_state_is_log_tail :
    (forall opts g, constructGroup opts = .ok g →
      exists s, g.privChanges = [ { groupChange := none, groupState := some s } ] ∧
        g.stateQ = some s) ∧
    (forall g aci pni actions now sc g1,
      ServerGroup.modify g aci pni actions now = .ok (.applied sc, g1) →
      exists entry s, g1.privChanges = g.privChanges ++ [entry] ∧
        entry.groupState = some s ∧ g1.stateQ = some s) ∧
    (forall g, Reachable g →
      exists entry s, g.privChanges.getLast? = some entry ∧
        entry.groupState = some s ∧ g.stateQ = some s) := by
  refine ⟨?_, ?_, ?_⟩
  · intro opts g hok
    obtain ⟨pk, ac, ms, unrolled, _, _, _, _, _, _, _, hg⟩ := constructGroup_ok_elim hok
    subst hg
    exact ⟨_, rfl, rfl⟩
  · intro g aci pni actions now sc g1 h
    obtain ⟨v, committed, w, oldVersion, _, _, _, _, _, hcase⟩ := modify_ok_elim h
    rcases hcase with ⟨_, hres, hg1⟩ | ⟨_, hres, _⟩
    · subst hg1
      exact ⟨{ groupChange := some { actions := w.applied
                                     changeEpoch := w.changeEpoch
                                     serverSignature := none }
               groupState := some w.newState }, w.newState, rfl, rfl, stateQ_concat g _⟩
    · cases hres
  · intro g hr
    have hlog := reachable_logOk hr
    obtain ⟨s, hs, _⟩ := stateQ_of_logOk hlog
    have hne := hlog.1
    have hgl : g.privChanges.getLast? = some (g.privChanges.getLast hne) :=
      List.getLast?_eq_getLast _ hne
    refine ⟨g.privChanges.getLast hne, s, hgl, ?_, hs⟩
    have : g.stateQ = (g.privChanges.getLast hne).groupState := by
      simp only [ServerGroup.stateQ, hgl]
    rw [this] at hs
    exact hs

/-- Witness for C10 at the concrete constructed group. -/
theorem c10_witness :
    exists s, g0.privChanges = [ { groupChange := none, groupState := some s } ] ∧
      g0.stateQ = some s :=
  c10_state_is_log_tail.1 opts0 g0 rfl


/-! ## Claim C4: lookups consult the committed snapshot (corrected) -/

/-- A delete-pending sub-action whose target is not pending in the committed
snapshot fails from every working state: the lookup reads the committed
snapshot, not the working copy. -/
lemma deletePendingStep_error {committed : IGroup} {aci pni : Bytes} {d : Bytes}
    (hnp : committed.getPendingMember d = none) :
    forall w, exists e,
      deletePendingStep committed aci pni w { deletedUserId := some d } = .error e := by
  intro w
  apply except_error_of_not_ok
  intro w1 h
  unfold deletePendingStep at h
  repeat' split at h
  all_goals simp_all

/-- Counterexample to claim C4 as stated: the bundle acts4 first adds a
pending entry for user 10 and then deletes pending user 10 in the same call.
After the add stage the working copy does contain pending user 10, yet the
whole call fails, because the delete-pending lookup consults the committed
snapshot, where user 10 is not pending. -/
theorem c4_counterexample :
    constructGroup opts0 = .ok g0 ∧
    g0.modify 10 11 acts4 7 =
      .error (.assertionFailed "Pending member not found for deletion") ∧
    committed0.getPendingMember 10 = none ∧
    (exists w, runSteps (addPendingStep (committed0.getMember 10) (acMembers committed0) 10 7)
        (initialWorking committed0 10 1) (acts4.addPendingMembers.getD []) = .ok w ∧
      10 ∈ pendingIds w.newState) ∧
    acts4.deletePendingMembers = some [ { deletedUserId := some 10 } ] := by
  refine ⟨rfl, rfl, rfl, ?_, rfl⟩
  refine ⟨_, rfl, ?_⟩
  decide

/-- Claim C4 amended: later sub-actions accumulate their set mutations in the
working copy, but the membership lookups performed while processing
sub-actions (getMember, getPendingMember) consult the previously committed
snapshot, not the working copy: a delete-pending sub-action whose target is
not pending in the committed snapshot makes the whole call fail, even when an
earlier add-pending sub-action of the same bundle added exactly that user. -/
theorem c4_amended (g : ServerGroup) (aci pni : Bytes) (actions : IActions) (now : Nat)
    (committed : IGroup) (d : Bytes)
    (hst : g.stateQ = some committed)
    (hmem : ({ deletedUserId := some d } : DeletePendingMemberAction) ∈
      actions.deletePendingMembers.getD [])
    (hnp : committed.getPendingMember d = none) :
    exists e, g.modify aci pni actions now = .error e := by
  apply modify_error_of_applyActions
  intro c v hstc hv h0
  rw [hst] at hstc
  cases hstc
  apply applyActions_error_of_deletePending
  intro w
  exact runSteps_error_of_elem _ _ (deletePendingStep_error hnp) _ hmem w

/-- Witness for C4 amended at the concrete bundle. -/
theorem c4_witness : exists e, g0.modify 10 11 acts4 7 = .error e :=
  c4_amended g0 10 11 acts4 7 committed0 10 rfl (by decide) rfl

/-! ## Claim C5: UNSATISFIABLE members access (corrected) -/

lemma isSelfTarget_none (am : Option IMember) : isSelfTarget am none = false := by
  cases am <;> rfl

lemma verifyAccess_unsat (attr : String) (am : Option IMember) (affected : Option Bytes)
    (hns : isSelfTarget am affected = false) :
    verifyAccess attr am AccessRequired.UNSATISFIABLE affected =
      .error (.thrown ("Unsatisfiable access attribute: " ++ attr)) := by
  unfold verifyAccess
  rw [if_neg (by rw [hns]; exact Bool.false_ne_true), if_neg (by decide),
    if_neg (by decide), if_neg (by decide), if_pos rfl]

/-- Every add-pending sub-action fails under UNSATISFIABLE members access:
the access check passes no affected user id, so the self bypass can never
fire. -/
lemma addPendingStep_error_unsat (am : Option IMember) (aci : Bytes) (now : Nat)
    (a : AddPendingMemberAction) :
    forall w, exists e,
      addPendingStep am AccessRequired.UNSATISFIABLE aci now w a = .error e := by
  intro w
  apply except_error_of_not_ok
  intro w1 h
  unfold addPendingStep at h
  repeat' split at h
  all_goals simp_all [verifyAccess_unsat "pendingMembers" am none (isSelfTarget_none am)]

/-- A delete-member sub-action whose target is not the acting member fails
under UNSATISFIABLE members access. -/
lemma deleteMemberStep_error_unsat {committed : IGroup} {am : Option IMember} (d : Bytes)
    (hns : isSelfTarget am (some d) = false) :
    forall w, exists e,
      deleteMemberStep committed am AccessRequired.UNSATISFIABLE w
        { deletedUserId := some d } = .error e := by
  intro w
  apply except_error_of_not_ok
  intro w1 h
  unfold deleteMemberStep at h
  repeat' split at h
  all_goals simp_all [verifyAccess_unsat]

/-- Counterexample to claim C5 as stated: g5 is a constructed group whose
members access level is UNSATISFIABLE, yet the bundle acts5, in which member
10 deletes their own record, commits successfully via the self-modification
bypass. -/
theorem c5_counterexample :
    constructGroup opts5 = .ok g5 ∧
    committed5.accessControl = some accessUnsat ∧
    accessUnsat.members = some AccessRequired.UNSATISFIABLE ∧
    acts5.deleteMembers = some [ { deletedUserId := some 10 } ] ∧
    modifySucceeded g5 10 11 acts5 7 = true :=
  ⟨rfl, rfl, rfl, rfl, rfl⟩

/-- Claim C5 amended: under UNSATISFIABLE members access every modify call
containing an add-pending sub-action fails, and every delete-member
sub-action whose target is NOT the acting member's own userId makes the call
fail; a self-targeted delete is exempt through the self-modification
bypass (see the counterexample). -/
theorem c5_amended (g : ServerGroup) (aci pni : Bytes) (actions : IActions) (now : Nat)
    (committed : IGroup) (ac : AccessControl)
    (hst : g.stateQ = some committed)
    (hac : committed.accessControl = some ac)
    (hm : ac.members = some AccessRequired.UNSATISFIABLE) :
    ((actions.addPendingMembers.getD []) ≠ [] →
      exists e, g.modify aci pni actions now = .error e) ∧
    (forall d, ({ deletedUserId := some d } : DeleteMemberAction) ∈
        actions.deleteMembers.getD [] →
      isSelfTarget (committed.getMember aci) (some d) = false →
      exists e, g.modify aci pni actions now = .error e) := by
  have hacm : acMembers committed = AccessRequired.UNSATISFIABLE := by
    simp only [acMembers, hac]
    rw [hm]
    rfl
  constructor
  · intro hne
    apply modify_error_of_applyActions
    intro c v hstc hv h0
    rw [hst] at hstc
    cases hstc
    apply applyActions_error_of_addPending
    intro w
    cases hl : actions.addPendingMembers.getD [] with
    | nil => exact absurd hl hne
    | cons aAct rest =>
      obtain ⟨e, he⟩ := addPendingStep_error_unsat (committed.getMember aci) aci now aAct w
      refine ⟨e, ?_⟩
      rw [hacm]
      simp only [runSteps, he]
  · intro d hmem hns
    apply modify_error_of_applyActions
    intro c v hstc hv h0
    rw [hst] at hstc
    cases hstc
    apply applyActions_error_of_deleteMembers
    intro w
    rw [hacm]
    exact runSteps_error_of_elem _ _ (deleteMemberStep_error_unsat d hns) _ hmem w

/-- Witness for C5 amended: a concrete add-pending bundle fails on g5. -/
theorem c5_witness : exists e, g5.modify 10 11 acts3 7 = .error e :=
  (c5_amended g5 10 11 acts3 7 committed5 accessUnsat rfl rfl rfl).1 (by decide)


/-! ## Claim C3: pending and active members disjointness (corrected) -/

lemma titleStage_sets {am : Option IMember} {acc : Nat} {actions : IActions}
    {w w1 : Working} (h : titleStage am acc actions w = .ok w1) :
    w1.newState.members = w.newState.members ∧
    w1.newState.membersPendingProfileKey = w.newState.membersPendingProfileKey := by
  unfold titleStage at h
  repeat' split at h
  all_goals cases h <;> exact ⟨rfl, rfl⟩

lemma deleteMemberStep_subset {committed : IGroup} {am : Option IMember} {acc : Nat}
    {w : Working} {d : DeleteMemberAction} {w1 : Working}
    (h : deleteMemberStep committed am acc w d = .ok w1) :
    (w1.newState.members.getD []) ⊆ (w.newState.members.getD []) ∧
    w1.newState.membersPendingProfileKey = w.newState.membersPendingProfileKey := by
  unfold deleteMemberStep at h
  repeat' split at h
  all_goals cases h <;> exact ⟨fun x hx => List.mem_of_mem_filter hx, rfl⟩

lemma deletePendingStep_subset {committed : IGroup} {aci pni : Bytes}
    {w : Working} {d : DeletePendingMemberAction} {w1 : Working}
    (h : deletePendingStep committed aci pni w d = .ok w1) :
    w1.newState.members = w.newState.members ∧
    (w1.newState.membersPendingProfileKey.getD []) ⊆
      (w.newState.membersPendingProfileKey.getD []) := by
  unfold deletePendingStep at h
  repeat' split at h
  all_goals cases h <;> exact ⟨rfl, fun x hx => List.mem_of_mem_filter hx⟩

lemma disjointIds_iff (s : IGroup) :
    disjointIds s = true ↔ forall u, u ∈ memberIds s → ¬(u ∈ pendingIds s) := by
  simp [disjointIds, List.all_eq_true]

lemma memberIds_subset {s1 s2 : IGroup}
    (h : (s1.members.getD []) ⊆ (s2.members.getD [])) :
    memberIds s1 ⊆ memberIds s2 := by
  intro u hu
  obtain ⟨m, hm1, hm2⟩ := List.mem_filterMap.mp hu
  exact List.mem_filterMap.mpr ⟨m, h hm1, hm2⟩

lemma pendingIds_subset {s1 s2 : IGroup}
    (h : (s1.membersPendingProfileKey.getD []) ⊆ (s2.membersPendingProfileKey.getD [])) :
    pendingIds s1 ⊆ pendingIds s2 := by
  intro u hu
  obtain ⟨pm, hm1, hm2⟩ := List.mem_filterMap.mp hu
  exact List.mem_filterMap.mpr ⟨pm, h hm1, hm2⟩

lemma disjointIds_of_subsets {s1 s2 : IGroup}
    (hm : (s1.members.getD []) ⊆ (s2.members.getD []))
    (hp : (s1.membersPendingProfileKey.getD []) ⊆ (s2.membersPendingProfileKey.getD []))
    (hd : disjointIds s2 = true) : disjointIds s1 = true := by
  rw [disjointIds_iff] at *
  intro u hu hup
  exact hd u (memberIds_subset hm hu) (pendingIds_subset hp hup)

/-- Counterexample to claim C3 as stated: g0 is a constructed group whose
sole active member has userId 10 and whose pending set is empty (disjoint);
the committed bundle acts3 adds a pending entry for userId 10 with no check
against the active member set, so the resulting committed snapshot holds
userId 10 in both members and membersPendingProfileKey. -/
theorem c3_counterexample :
    constructGroup opts0 = .ok g0 ∧
    disjointIds committed0 = true ∧
    modifySucceeded g0 10 11 acts3 7 = true ∧
    disjointIds ((afterModify g0 10 11 acts3 7).stateQ.getD emptyIGroup) = false := by
  exact ⟨rfl, by decide, rfl, by decide⟩

/-- Claim C3 amended: the code never enforces disjointness of members and
pending members as a committed-state invariant (add-pending inserts a pending
entry without consulting the active member set, as the counterexample shows);
what holds is preservation under the non-inserting sub-actions: if the
committed snapshot is disjoint by userId, a committed modify whose bundle
contains no add-pending and no promote sub-actions leaves it disjoint. -/
theorem c3_amended (g : ServerGroup) (aci pni : Bytes) (actions : IActions) (now : Nat)
    (committed : IGroup) (sc : SignedGroupChange) (g1 : ServerGroup)
    (hst : g.stateQ = some committed)
    (hdisj : disjointIds committed = true)
    (hadd : actions.addPendingMembers.getD [] = [])
    (hpromo : actions.promotePendingMembers.getD [] = [])
    (hpni : actions.promoteMembersPendingPniAciProfileKey.getD [] = [])
    (h : g.modify aci pni actions now = .ok (.applied sc, g1)) :
    exists s1, g1.stateQ = some s1 ∧ disjointIds s1 = true := by
  obtain ⟨v, c, w, ov, hv, h0, hstc, happ, hov, hcase⟩ := modify_ok_elim h
  rw [hst] at hstc
  cases hstc
  rcases hcase with ⟨heq, hres, hg1⟩ | ⟨_, hres, _⟩
  swap
  · cases hres
  obtain ⟨w1, w2, w3, w4, w5, h1, h2, h3, h4, h5, h6⟩ := applyActions_ok_elim happ
  rw [hadd] at h3
  simp only [runSteps] at h3
  cases h3
  rw [hpromo] at h5
  simp only [runSteps] at h5
  cases h5
  rw [hpni] at h6
  simp only [runSteps] at h6
  cases h6
  have hm1 : w1.newState.members = committed.members ∧
      w1.newState.membersPendingProfileKey = committed.membersPendingProfileKey :=
    titleStage_sets h1
  have hsub2 : (w2.newState.members.getD []) ⊆ (committed.members.getD []) ∧
      w2.newState.membersPendingProfileKey = committed.membersPendingProfileKey := by
    refine runSteps_preserves
      (fun x => (x.newState.members.getD []) ⊆ (committed.members.getD []) ∧
        x.newState.membersPendingProfileKey = committed.membersPendingProfileKey)
      _ ?_ _ _ _ h2 ?_
    · intro wx a wy hh hpw
      obtain ⟨hsub, hpend⟩ := deleteMemberStep_subset hh
      exact ⟨hsub.trans hpw.1, hpend.trans hpw.2⟩
    · dsimp only
      rw [hm1.1, hm1.2]
      exact ⟨fun x hx => hx, rfl⟩
  have hsub4 : (w.newState.members.getD []) ⊆ (committed.members.getD []) ∧
      (w.newState.membersPendingProfileKey.getD []) ⊆
        (committed.membersPendingProfileKey.getD []) := by
    refine runSteps_preserves
      (fun x => (x.newState.members.getD []) ⊆ (committed.members.getD []) ∧
        (x.newState.membersPendingProfileKey.getD []) ⊆
          (committed.membersPendingProfileKey.getD []))
      _ ?_ _ _ _ h4 ?_
    · intro wx a wy hh hpw
      obtain ⟨hmems, hsub⟩ := deletePendingStep_subset hh
      refine ⟨?_, hsub.trans hpw.2⟩
      rw [hmems]
      exact hpw.1
    · dsimp only
      refine ⟨hsub2.1, ?_⟩
      rw [hsub2.2]
      exact fun x hx => hx
  subst hg1
  refine ⟨w.newState, stateQ_concat g _, ?_⟩
  exact disjointIds_of_subsets hsub4.1 hsub4.2 hdisj

/-- Witness for C3 amended: member 10 deletes their own record; the committed
snapshot stays disjoint. -/
theorem c3_witness :
    exists s1, (afterModify g0 10 11 acts5 7).stateQ = some s1 ∧ disjointIds s1 = true :=
  c3_amended g0 10 11 acts5 7 committed0 (signedOf g0 10 11 acts5 7)
    (afterModify g0 10 11 acts5 7) rfl (by decide) rfl rfl rfl rfl


/-! ## Claim C7: promotion of pending members -/

/-- A promote sub-action whose presentation does not verify, or whose
extracted identity is already an active member, or is not currently pending
(both checked against the committed snapshot) fails from every working
state. -/
lemma promotePendingStep_error {committed : IGroup} {aci : Bytes}
    {p : PromotePendingMemberAction} {pres : Presentation}
    (hp : p.presentation = some pres)
    (hbad : pres.valid = false ∨ committed.getMember pres.uuid ≠ none ∨
      committed.getPendingMember pres.uuid = none) :
    forall w, exists e, promotePendingStep committed aci w p = .error e := by
  intro w
  apply except_error_of_not_ok
  intro w1 h
  unfold promotePendingStep at h
  simp only [hp] at h
  by_cases hv : pres.valid = true
  · rw [if_pos hv] at h
    by_cases hu : (pres.uuid == aci) = true
    · rw [if_pos hu] at h
      cases hpm : committed.getPendingMember pres.uuid with
      | none => simp only [hpm] at h; cases h
      | some pe =>
        simp only [hpm] at h
        cases hgm : committed.getMember pres.uuid with
        | some m => simp only [hgm] at h; cases h
        | none =>
          rcases hbad with hb | hb | hb
          · rw [hv] at hb
            cases hb
          · exact hb hgm
          · rw [hpm] at hb
            cases hb
    · rw [if_neg hu] at h
      cases h
  · rw [if_neg hv] at h
    cases h

/-- Success-shape of one promote-pending step. -/
lemma promotePendingStep_ok_elim {committed : IGroup} {aci : Bytes}
    {w : Working} {p : PromotePendingMemberAction} {w1 : Working}
    (h : promotePendingStep committed aci w p = .ok w1) :
    exists pres pe, p.presentation = some pres ∧ pres.valid = true ∧
      (pres.uuid == aci) = true ∧
      committed.getPendingMember pres.uuid = some pe ∧
      committed.getMember pres.uuid = none ∧
      w1.newState.membersPendingProfileKey =
        some ((w.newState.membersPendingProfileKey.getD []).filter
          (fun entry => entry != pe)) ∧
      w1.newState.members = some ((w.newState.members.getD []) ++ [promotedMemberEntry pres]) := by
  unfold promotePendingStep at h
  cases hp : p.presentation with
  | none => simp only [hp] at h; cases h
  | some pres =>
    simp only [hp] at h
    by_cases hv : pres.valid = true
    · rw [if_pos hv] at h
      by_cases hu : (pres.uuid == aci) = true
      · rw [if_pos hu] at h
        cases hpm : committed.getPendingMember pres.uuid with
        | none => simp only [hpm] at h; cases h
        | some pe =>
          simp only [hpm] at h
          cases hgm : committed.getMember pres.uuid with
          | some m => simp only [hgm] at h; cases h
          | none =>
            simp only [hgm] at h
            cases h
            exact ⟨pres, pe, rfl, hv, hu, hpm, hgm, rfl, rfl⟩
      · rw [if_neg hu] at h
        cases h
    · rw [if_neg hv] at h
      cases h

/-- One promote-pending step only filters the working pending set and only
appends to the working member set. -/
lemma promotePendingStep_preserve {committed : IGroup} {aci : Bytes}
    {w : Working} {p : PromotePendingMemberAction} {w1 : Working}
    (h : promotePendingStep committed aci w p = .ok w1)
    (x : IPendingMember) (mm : IMember) :
    (¬(x ∈ (w.newState.membersPendingProfileKey.getD [])) →
      ¬(x ∈ (w1.newState.membersPendingProfileKey.getD []))) ∧
    (mm ∈ (w.newState.members.getD []) → mm ∈ (w1.newState.members.getD [])) := by
  obtain ⟨pres, pe, _, _, _, _, _, hpend, hmems⟩ := promotePendingStep_ok_elim h
  constructor
  · intro hx hx1
    rw [hpend] at hx1
    simp only [Option.getD_some] at hx1
    exact hx (List.mem_of_mem_filter hx1)
  · intro hm
    rw [hmems]
    simp only [Option.getD_some]
    exact List.mem_append_left _ hm

/-- Success-shape of one cross-identity promote step. -/
lemma promotePniStep_ok_elim {committed : IGroup} {aci pni : Bytes}
    {w : Working} {p : PromotePendingMemberAction} {w1 : Working}
    (h : promotePniStep committed aci pni w p = .ok w1) :
    exists pres pe, p.presentation = some pres ∧
      w1.newState.membersPendingProfileKey =
        some ((w.newState.membersPendingProfileKey.getD []).filter
          (fun entry => entry != pe)) ∧
      w1.newState.members = some ((w.newState.members.getD []) ++ [promotedMemberEntry pres]) := by
  unfold promotePniStep at h
  cases hp : p.presentation with
  | none => simp only [hp] at h; cases h
  | some pres =>
    simp only [hp] at h
    by_cases hv : pres.valid = true
    · rw [if_pos hv] at h
      by_cases hu : (pres.uuid == aci) = true
      · rw [if_pos hu] at h
        cases hpm : committed.getPendingMember pni with
        | none => simp only [hpm] at h; cases h
        | some pe =>
          simp only [hpm] at h
          cases hgm : committed.getMember pres.uuid with
          | some m => simp only [hgm] at h; cases h
          | none =>
            simp only [hgm] at h
            cases h
            exact ⟨pres, pe, rfl, rfl, rfl⟩
      · rw [if_neg hu] at h
        cases h
    · rw [if_neg hv] at h
      cases h

/-- One cross-identity promote step only filters the working pending set and
only appends to the working member set. -/
lemma promotePniStep_preserve {committed : IGroup} {aci pni : Bytes}
    {w : Working} {p : PromotePendingMemberAction} {w1 : Working}
    (h : promotePniStep committed aci pni w p = .ok w1)
    (x : IPendingMember) (mm : IMember) :
    (¬(x ∈ (w.newState.membersPendingProfileKey.getD [])) →
      ¬(x ∈ (w1.newState.membersPendingProfileKey.getD []))) ∧
    (mm ∈ (w.newState.members.getD []) → mm ∈ (w1.newState.members.getD [])) := by
  obtain ⟨pres, pe, _, hpend, hmems⟩ := promotePniStep_ok_elim h
  constructor
  · intro hx hx1
    rw [hpend] at hx1
    simp only [Option.getD_some] at hx1
    exact hx (List.mem_of_mem_filter hx1)
  · intro hm
    rw [hmems]
    simp only [Option.getD_some]
    exact List.mem_append_left _ hm

/-- Claim C7: a promote-pending sub-action makes modify fail if the presented
credential does not verify, if the verified extracted identity is already an
active member, or if that identity is not currently pending; and whenever the
call commits, the pending entry for the extracted identity has been removed
from the pending set and a member with role DEFAULT, the extracted identity
and the extracted profile-key ciphertext has been added to the active member
set of the new committed snapshot. -/
theorem c7_promote_pending (g : ServerGroup) (aci pni : Bytes) (actions : IActions)
    (now : Nat) (p : PromotePendingMemberAction) (pres : Presentation) (committed : IGroup)
    (hst : g.stateQ = some committed)
    (hmem : p ∈ actions.promotePendingMembers.getD [])
    (hp : p.presentation = some pres) :
    ((pres.valid = false ∨ committed.getMember pres.uuid ≠ none ∨
        committed.getPendingMember pres.uuid = none) →
      exists e, g.modify aci pni actions now = .error e) ∧
    (forall sc g1, g.modify aci pni actions now = .ok (.applied sc, g1) →
      exists pe s1, committed.getPendingMember pres.uuid = some pe ∧
        g1.stateQ = some s1 ∧
        ¬(pe ∈ (s1.membersPendingProfileKey.getD [])) ∧
        promotedMemberEntry pres ∈ (s1.members.getD [])) := by
  constructor
  · intro hbad
    apply modify_error_of_applyActions
    intro c v hstc hv h0
    rw [hst] at hstc
    cases hstc
    apply applyActions_error_of_promote
    intro w
    exact runSteps_error_of_elem _ _ (promotePendingStep_error hp hbad) _ hmem w
  · intro sc g1 h
    obtain ⟨v, c, w, ov, hv, h0, hstc, happ, hov, hcase⟩ := modify_ok_elim h
    rw [hst] at hstc
    cases hstc
    rcases hcase with ⟨heq, hres, hg1⟩ | ⟨_, hres, _⟩
    swap
    · cases hres
    obtain ⟨w1, w2, w3, w4, w5, h1, h2, h3, h4, h5, h6⟩ := applyActions_ok_elim happ
    cases hpe : committed.getPendingMember pres.uuid with
    | none =>
      obtain ⟨e, he⟩ := runSteps_error_of_elem _ _
        (promotePendingStep_error hp (Or.inr (Or.inr hpe))) _ hmem w4
      rw [he] at h5
      cases h5
    | some pe =>
      have hP : ¬(pe ∈ (w5.newState.membersPendingProfileKey.getD [])) ∧
          promotedMemberEntry pres ∈ (w5.newState.members.getD []) := by
        refine runSteps_establishes
          (fun x => ¬(pe ∈ (x.newState.membersPendingProfileKey.getD [])) ∧
            promotedMemberEntry pres ∈ (x.newState.members.getD []))
          (promotePendingStep committed aci) p ?_ ?_ _ _ _ hmem h5
        · intro wx y wy hh hpw
          have hpres := promotePendingStep_preserve hh pe (promotedMemberEntry pres)
          exact ⟨hpres.1 hpw.1, hpres.2 hpw.2⟩
        · intro wx wy hh
          obtain ⟨pres1, pe1, hp1, _, _, hpe1, _, hpend, hmems⟩ := promotePendingStep_ok_elim hh
          rw [hp] at hp1
          cases hp1
          rw [hpe] at hpe1
          cases hpe1
          constructor
          · intro hin
            rw [hpend] at hin
            simp only [Option.getD_some, List.mem_filter, bne_self_eq_false] at hin
            cases hin.2
          · rw [hmems]
            simp only [Option.getD_some]
            exact List.mem_append_right _ (List.mem_singleton_self _)
      have hPw : ¬(pe ∈ (w.newState.membersPendingProfileKey.getD [])) ∧
          promotedMemberEntry pres ∈ (w.newState.members.getD []) := by
        refine runSteps_preserves
          (fun x => ¬(pe ∈ (x.newState.membersPendingProfileKey.getD [])) ∧
            promotedMemberEntry pres ∈ (x.newState.members.getD []))
          (promotePniStep committed aci pni) ?_ _ _ _ h6 hP
        intro wx y wy hh hpw
        have hpres := promotePniStep_preserve hh pe (promotedMemberEntry pres)
        exact ⟨hpres.1 hpw.1, hpres.2 hpw.2⟩
      subst hg1
      exact ⟨pe, w.newState, rfl, stateQ_concat g _, hPw.1, hPw.2⟩

/-- Witness for C7: user 30 promotes themself on the concrete group g7. -/
theorem c7_witness :
    exists pe s1, committed7.getPendingMember pres30.uuid = some pe ∧
      (afterModify g7 30 31 acts7 5).stateQ = some s1 ∧
      ¬(pe ∈ (s1.membersPendingProfileKey.getD [])) ∧
      promotedMemberEntry pres30 ∈ (s1.members.getD []) :=
  (c7_promote_pending g7 30 31 acts7 5 promoteAct30 pres30 committed7 rfl
      (by decide) rfl).2
    (signedOf g7 30 31 acts7 5) (afterModify g7 30 31 acts7 5) rfl

end MockSignal
